import Mathlib

/-! # node-openzwave: the notification bridge of `src/openzwave.cc`

A shallow embedding of the bridge between the OpenZWave controller library and
the host event loop: the notification queue (`cb`, `async_cb_handler`), the
node and scene tables (`znodes`, `zscenes`, `homeid`), the value marshallers
(`zwaveValue2v8Value`, `zwaveSceneValue2v8Value`), the commands of `OZW` with
the method table of `init`, and the order in which the code takes its mutexes,
calls the controller and emits.

Conventions of the embedding.

* The controller library (`OpenZWave::Manager`, `OpenZWave::Notification`,
  `OpenZWave::ValueID`) is not part of the repository.  Its query interface is
  the record `Manager`; a `ValueID` and a `Notification` are records of what
  their accessor methods return.
* `uint8_t`, `uint32_t`, ... values are natural numbers.  A narrowing conversion
  that the source performs is written out (`Integer_New`).
* The globals `znodes`, `zscenes`, `homeid` are the record `Registry`; together
  with `zqueue` they form `Globals`.  The tables hold pointers in the source;
  each pointer is created by its own `new` and stored once, so a table is a
  list of records and a write through a looked-up pointer is an update of the
  first matching list element.
* Calls of `MakeCallback(context_obj, "emit", n, args)` are collected as
  `Event`s, lines written to `stderr` as `Diag`s.
* A command takes its host arguments after conversion: a node id, class id,
  instance, index or scene id is the `uint8_t` the source converts to; the
  value argument of `setValue` and `addSceneValue` is a `JsValue`.  The calls a
  command forwards to the controller are collected as `ControllerCall`s.
* Code whose behaviour the language leaves undefined (`front()` of an empty
  list, an array read past its end) returns `none`.
-/

namespace Ozw

/-! ## Controller data -/

/-- The enumeration `OpenZWave::ValueID::ValueType`, with the ten members the
source names; `ValueType_Other` stands for any further member. -/
inductive ValueType where
  | ValueType_Bool
  | ValueType_Byte
  | ValueType_Decimal
  | ValueType_Int
  | ValueType_List
  | ValueType_Schedule
  | ValueType_Short
  | ValueType_String
  | ValueType_Button
  | ValueType_Raw
  | ValueType_Other (code : Nat)
  deriving DecidableEq, Repr

/-- An `OpenZWave::ValueID`, given by the results of its accessors.  Equality of
records stands for `operator==` of the library. -/
structure ValueID where
  GetHomeId : Nat
  GetNodeId : Nat
  GetGenre : Nat
  GetCommandClassId : Nat
  GetInstance : Nat
  GetIndex : Nat
  GetType : ValueType
  GetId : Nat
  deriving DecidableEq, Repr

/-- The enumeration `OpenZWave::Notification::NotificationType`, with the
members the source names; `Type_Other` stands for any further member. -/
inductive NotificationType where
  | Type_ValueAdded
  | Type_ValueRemoved
  | Type_ValueChanged
  | Type_ValueRefreshed
  | Type_Group
  | Type_NodeNew
  | Type_NodeAdded
  | Type_NodeProtocolInfo
  | Type_NodeNaming
  | Type_NodeEvent
  | Type_PollingDisabled
  | Type_PollingEnabled
  | Type_SceneEvent
  | Type_CreateButton
  | Type_DeleteButton
  | Type_ButtonOn
  | Type_ButtonOff
  | Type_DriverReady
  | Type_DriverFailed
  | Type_EssentialNodeQueriesComplete
  | Type_NodeQueriesComplete
  | Type_AwakeNodesQueried
  | Type_AllNodesQueried
  | Type_AllNodesQueriedSomeDead
  | Type_Notification
  | Type_Other (code : Nat)
  deriving DecidableEq, Repr

/-- An `OpenZWave::Notification` as handed to the watcher callback, given by the
results of its accessors.  The notification is about the value it carries, so
`GetNodeId` gives the node id of `GetValueID`; the record keeps each result as
a field of its own, and a theorem that needs the agreement states it. -/
structure Notification where
  GetType : NotificationType
  GetHomeId : Nat
  GetNodeId : Nat
  GetValueID : ValueID
  GetGroupIdx : Nat
  GetEvent : Nat
  GetButtonId : Nat
  GetSceneId : Nat
  GetNotification : Nat
  deriving DecidableEq, Repr

/-- The query interface of the controller (`OpenZWave::Manager::Get()`), and the
two static name tables of `OpenZWave::Value`.  A getter that writes through an
out-parameter is the function giving the written value.  A `float` is the
rational number it denotes. -/
structure Manager where
  GetNodeManufacturerName : Nat → Nat → String
  GetNodeManufacturerId : Nat → Nat → String
  GetNodeProductName : Nat → Nat → String
  GetNodeProductType : Nat → Nat → String
  GetNodeProductId : Nat → Nat → String
  GetNodeType : Nat → Nat → String
  GetNodeName : Nat → Nat → String
  GetNodeLocation : Nat → Nat → String
  GetTypeNameFromEnum : ValueType → String
  GetGenreNameFromEnum : Nat → String
  GetValueLabel : ValueID → String
  GetValueUnits : ValueID → String
  IsValueReadOnly : ValueID → Bool
  IsValueWriteOnly : ValueID → Bool
  GetValueMin : ValueID → Int
  GetValueMax : ValueID → Int
  GetValueAsBool : ValueID → Bool
  GetValueAsByte : ValueID → Nat
  GetValueAsFloat : ValueID → Rat
  GetValueAsInt : ValueID → Int
  GetValueAsShort : ValueID → Int
  GetValueAsString : ValueID → String
  GetValueListItems : ValueID → List String
  GetValueListSelection : ValueID → String
  SceneGetValueAsBool : Nat → ValueID → Bool
  SceneGetValueAsByte : Nat → ValueID → Nat
  SceneGetValueAsFloat : Nat → ValueID → Rat
  SceneGetValueAsInt : Nat → ValueID → Int
  SceneGetValueAsShort : Nat → ValueID → Int
  SceneGetValueAsString : Nat → ValueID → String
  SceneGetValueListSelection : Nat → ValueID → String
  SceneGetValues : Nat → List ValueID
  GetNumScenes : Nat
  GetAllScenes : List Nat
  GetSceneLabel : Nat → String
  CreateScene : Nat
  GetNodeNeighbors : Nat → Nat → List Nat

/-! ## Host values -/

/-- A property value of a host object built by the bridge. -/
inductive V8Prim where
  | str (s : String)
  | int (i : Int)
  | bool (b : Bool)
  | strArray (items : List String)
  deriving DecidableEq, Repr

/-- A host object (`Object::New()`): its properties in creation order. -/
abbrev V8Object := List (String × V8Prim)

/-- An argument of an emitted event. -/
inductive V8Value where
  | str (s : String)
  | int (i : Int)
  | obj (o : V8Object)
  | objArray (os : List V8Object)
  | intArray (xs : List Int)
  deriving DecidableEq, Repr

/-- One `MakeCallback(context_obj, "emit", n, args)`: `args[0]` is the event
name, `args[1] .. args[n-1]` are the payload. -/
structure Event where
  name : String
  args : List V8Value
  deriving DecidableEq, Repr

/-- A line written to `stderr`. -/
inductive Diag where
  | unhandled_notification (type : NotificationType)
  | unsupported_value_type (type : ValueType)
  | unsupported_scene_value_type (type : ValueType)
  deriving DecidableEq, Repr

/-! ## The data of the bridge itself -/

/-- The queue element `NotifInfo`. -/
structure NotifInfo where
  type : NotificationType
  homeid : Nat
  nodeid : Nat
  groupidx : Nat
  event : Nat
  buttonid : Nat
  sceneid : Nat
  notification : Nat
  values : List ValueID
  deriving DecidableEq, Repr

/-- The node table element `NodeInfo`. -/
structure NodeInfo where
  homeid : Nat
  nodeid : Nat
  polled : Bool
  values : List ValueID
  deriving DecidableEq, Repr

/-- The scene table element `SceneInfo`. -/
structure SceneInfo where
  sceneid : Nat
  label : String
  values : List ValueID
  deriving DecidableEq, Repr

/-- The globals `znodes`, `zscenes` and `homeid`. -/
structure Registry where
  znodes : List NodeInfo
  zscenes : List SceneInfo
  homeid : Nat
  deriving DecidableEq, Repr

/-- All globals of the bridge: the queue `zqueue` and the registry. -/
structure Globals where
  zqueue : List NotifInfo
  reg : Registry
  deriving DecidableEq, Repr

/-- The globals at program start: empty containers, `homeid` zero. -/
def Globals.init : Globals :=
  { zqueue := [], reg := { znodes := [], zscenes := [], homeid := 0 } }

/-- What a run of bridge code hands to the outside: the emitted events and the
diagnostics, each in order, and the notification records the dispatch of
`async_cb_handler` ran on. -/
structure Output where
  events : List Event
  stderr : List Diag
  handled : List NotifInfo
  deriving DecidableEq, Repr

/-- No output. -/
def Output.nil : Output :=
  { events := [], stderr := [], handled := [] }

/-- Output of one run followed by the output of the next. -/
def Output.append (a b : Output) : Output :=
  { events := a.events ++ b.events,
    stderr := a.stderr ++ b.stderr,
    handled := a.handled ++ b.handled }

/-! ## Host value construction -/

/-- The conversion to `int32_t` that `Integer::New(int32_t)` applies to an
argument of a wider or unsigned 32-bit type. -/
def Integer_New (x : Int) : Int :=
  (x + 2147483648) % 4294967296 - 2147483648

/-- The conversion of a `float` to `int32_t`: the fractional part is dropped.
This is the conversion for a number whose integer part is an `int32_t`; for any
other number the language leaves the result open, and the definition then gives
the integer part all the same. -/
def float_to_int32 (q : Rat) : Int :=
  Int.tdiv q.num (Int.ofNat q.den)

/-- The `Object::Set` of the host: overwrite the property when present, add it
after the others when not. -/
def Object_Set : V8Object → String → V8Prim → V8Object
  | [], k, v => [(k, v)]
  | (k1, v1) :: rest, k, v =>
    if k1 = k then (k, v) :: rest else (k1, v1) :: Object_Set rest k v

/-- Property lookup on a host object. -/
def Object_Get : V8Object → String → Option V8Prim
  | [], _ => none
  | (k1, v1) :: rest, k => if k1 = k then some v1 else Object_Get rest k

/-- The text `sprintf(buffer, "%d-%d-%d-%d", ...)` formats.  The capacity of
`buffer` is not part of this definition; `sprintf_buffer` adds it. -/
def value_id_string (value : ValueID) : String :=
  toString value.GetNodeId ++ "-" ++ toString value.GetCommandClassId ++ "-" ++
    toString value.GetInstance ++ "-" ++ toString value.GetIndex

/-- The fourteen properties both marshallers set before the type switch, for a
value whose id text fits `char buffer[15]`.  For a value whose text does not
fit, the source writes past the buffer before it builds the object;
`zwaveValue2v8Value_buffer` and `zwaveSceneValue2v8Value_buffer` say so. -/
def common_value_fields (m : Manager) (value : ValueID) : V8Object :=
  let valobj : V8Object := []
  let valobj := Object_Set valobj "value_id" (.str (value_id_string value))
  let valobj := Object_Set valobj "id" (.int (Integer_New (Int.ofNat value.GetId)))
  let valobj := Object_Set valobj "node_id" (.int (Int.ofNat value.GetNodeId))
  let valobj := Object_Set valobj "class_id" (.int (Int.ofNat value.GetCommandClassId))
  let valobj := Object_Set valobj "type" (.str (m.GetTypeNameFromEnum value.GetType))
  let valobj := Object_Set valobj "genre" (.str (m.GetGenreNameFromEnum value.GetGenre))
  let valobj := Object_Set valobj "instance" (.int (Int.ofNat value.GetInstance))
  let valobj := Object_Set valobj "index" (.int (Int.ofNat value.GetIndex))
  let valobj := Object_Set valobj "label" (.str (m.GetValueLabel value))
  let valobj := Object_Set valobj "units" (.str (m.GetValueUnits value))
  let valobj := Object_Set valobj "read_only" (.bool (m.IsValueReadOnly value))
  let valobj := Object_Set valobj "write_only" (.bool (m.IsValueWriteOnly value))
  let valobj := Object_Set valobj "min" (.int (m.GetValueMin value))
  let valobj := Object_Set valobj "max" (.int (m.GetValueMax value))
  valobj

/-- The function `zwaveValue2v8Value`: the host object for a value, and what it
writes to `stderr`. -/
def zwaveValue2v8Value (m : Manager) (value : ValueID) : V8Object × List Diag :=
  let valobj := common_value_fields m value
  match value.GetType with
  | .ValueType_Bool =>
    (Object_Set valobj "value" (.bool (m.GetValueAsBool value)), [])
  | .ValueType_Byte =>
    (Object_Set valobj "value" (.int (Int.ofNat (m.GetValueAsByte value))), [])
  | .ValueType_Decimal =>
    (Object_Set valobj "value" (.int (float_to_int32 (m.GetValueAsFloat value))), [])
  | .ValueType_Int =>
    (Object_Set valobj "value" (.int (m.GetValueAsInt value)), [])
  | .ValueType_List =>
    let valobj := Object_Set valobj "values" (.strArray (m.GetValueListItems value))
    (Object_Set valobj "value" (.str (m.GetValueListSelection value)), [])
  | .ValueType_Short =>
    (Object_Set valobj "value" (.int (m.GetValueAsShort value)), [])
  | .ValueType_String =>
    (Object_Set valobj "value" (.str (m.GetValueAsString value)), [])
  | .ValueType_Button => (valobj, [])
  | .ValueType_Schedule => (valobj, [])
  | .ValueType_Raw => (valobj, [])
  | .ValueType_Other code => (valobj, [.unsupported_value_type (.ValueType_Other code)])

/-- The descriptive block built for `node naming`, `node available` and
`node ready`. -/
def node_info_object (m : Manager) (homeid nodeid : Nat) : V8Object :=
  let info : V8Object := []
  let info := Object_Set info "manufacturer" (.str (m.GetNodeManufacturerName homeid nodeid))
  let info := Object_Set info "manufacturerid" (.str (m.GetNodeManufacturerId homeid nodeid))
  let info := Object_Set info "product" (.str (m.GetNodeProductName homeid nodeid))
  let info := Object_Set info "producttype" (.str (m.GetNodeProductType homeid nodeid))
  let info := Object_Set info "productid" (.str (m.GetNodeProductId homeid nodeid))
  let info := Object_Set info "type" (.str (m.GetNodeType homeid nodeid))
  let info := Object_Set info "name" (.str (m.GetNodeName homeid nodeid))
  let info := Object_Set info "loc" (.str (m.GetNodeLocation homeid nodeid))
  info

/-- The function `zwaveSceneValue2v8Value`: the host object for a value as
recorded in the scene `sceneId`, and what it writes to `stderr`.  Its switch has
no case for button, schedule and raw; they go to `default`. -/
def zwaveSceneValue2v8Value (m : Manager) (sceneId : Nat) (value : ValueID) :
    V8Object × List Diag :=
  let valobj := common_value_fields m value
  match value.GetType with
  | .ValueType_Bool =>
    (Object_Set valobj "value" (.bool (m.SceneGetValueAsBool sceneId value)), [])
  | .ValueType_Byte =>
    (Object_Set valobj "value" (.int (Int.ofNat (m.SceneGetValueAsByte sceneId value))), [])
  | .ValueType_Decimal =>
    (Object_Set valobj "value" (.int (float_to_int32 (m.SceneGetValueAsFloat sceneId value))), [])
  | .ValueType_Int =>
    (Object_Set valobj "value" (.int (m.SceneGetValueAsInt sceneId value)), [])
  | .ValueType_List =>
    let valobj := Object_Set valobj "values" (.strArray (m.GetValueListItems value))
    (Object_Set valobj "value" (.str (m.SceneGetValueListSelection sceneId value)), [])
  | .ValueType_Short =>
    (Object_Set valobj "value" (.int (m.SceneGetValueAsShort sceneId value)), [])
  | .ValueType_String =>
    (Object_Set valobj "value" (.str (m.SceneGetValueAsString sceneId value)), [])
  | t => (valobj, [.unsupported_scene_value_type t])

/-- The write of `sprintf(buffer, "%d-%d-%d-%d", ...)` into `char buffer[15]`:
the text left in the buffer, or `none` when the text and its terminator take
more than the 15 bytes and the write runs past the buffer. -/
def sprintf_buffer (value : ValueID) : Option String :=
  if (value_id_string value).length + 1 ≤ 15 then some (value_id_string value) else none

/-- The function `zwaveValue2v8Value` with `buffer` taken into account: `none`
when the write into `buffer` runs past it, the object and the diagnostics of
`zwaveValue2v8Value` when the text fits. -/
def zwaveValue2v8Value_buffer (m : Manager) (value : ValueID) : Option (V8Object × List Diag) :=
  match sprintf_buffer value with
  | some _ => some (zwaveValue2v8Value m value)
  | none => none

/-- The function `zwaveSceneValue2v8Value` with `buffer` taken into account. -/
def zwaveSceneValue2v8Value_buffer (m : Manager) (sceneId : Nat) (value : ValueID) :
    Option (V8Object × List Diag) :=
  match sprintf_buffer value with
  | some _ => some (zwaveSceneValue2v8Value m sceneId value)
  | none => none

/-! ## The node table -/

/-- The function `get_node_info`: the first record of `znodes` with the given
`nodeid`, or `NULL`. -/
def get_node_info : List NodeInfo → Nat → Option NodeInfo
  | [], _ => none
  | node :: rest, nodeid =>
    if node.nodeid = nodeid then some node else get_node_info rest nodeid

/-- A write through the pointer `get_node_info` returns: the first record of
`znodes` with the given `nodeid` is replaced by its image under `f`. -/
def write_node_info : List NodeInfo → Nat → (NodeInfo → NodeInfo) → List NodeInfo
  | [], _, _ => []
  | node :: rest, nodeid, f =>
    if node.nodeid = nodeid then f node :: rest
    else node :: write_node_info rest nodeid f

/-- The loop of the `Type_ValueRemoved` case: erase the first element equal to
`value` and stop. -/
def values_erase : List ValueID → ValueID → List ValueID
  | [], _ => []
  | v :: rest, value => if v = value then rest else v :: values_erase rest value

/-! ## The queue: `cb` and `async_cb_handler` -/

/-- The record `cb` builds from a controller notification.  `new NotifInfo()`
zeroes the scalar members; the switch then fills the one member that belongs to
the notification type. -/
def cb_notif (n : Notification) : NotifInfo :=
  let notif : NotifInfo :=
    { type := n.GetType, homeid := n.GetHomeId, nodeid := n.GetNodeId,
      groupidx := 0, event := 0, buttonid := 0, sceneid := 0, notification := 0,
      values := [n.GetValueID] }
  match notif.type with
  | .Type_Group => { notif with groupidx := n.GetGroupIdx }
  | .Type_NodeEvent => { notif with event := n.GetEvent }
  | .Type_CreateButton => { notif with buttonid := n.GetButtonId }
  | .Type_DeleteButton => { notif with buttonid := n.GetButtonId }
  | .Type_ButtonOn => { notif with buttonid := n.GetButtonId }
  | .Type_ButtonOff => { notif with buttonid := n.GetButtonId }
  | .Type_SceneEvent => { notif with sceneid := n.GetSceneId }
  | .Type_Notification => { notif with notification := n.GetNotification }
  | _ => notif

/-- The callback `cb`: push the record onto `zqueue` (under `zqueue_mutex`).  The
wake-up `uv_async_send` has no effect on the globals. -/
def cb (n : Notification) (g : Globals) : Globals :=
  { g with zqueue := g.zqueue ++ [cb_notif n] }

/-- Emission of one event and nothing else. -/
def emit (name : String) (args : List V8Value) : Output :=
  { events := [{ name := name, args := args }], stderr := [], handled := [] }

/-- The `switch (notif->type)` of `async_cb_handler`, for one record: the new
registry and what is emitted.  `none` when `notif->values.front()` is taken of
an empty list. -/
def async_cb_switch (m : Manager) (notif : NotifInfo) (reg : Registry) :
    Option (Registry × Output) :=
  match notif.type with
  | .Type_DriverReady =>
    let reg := { reg with homeid := notif.homeid }
    some (reg, emit "driver ready" [.int (Integer_New (Int.ofNat reg.homeid))])
  | .Type_DriverFailed => some (reg, emit "driver failed" [])
  | .Type_NodeNew => some (reg, Output.nil)
  | .Type_NodeAdded =>
    let node : NodeInfo :=
      { homeid := notif.homeid, nodeid := notif.nodeid, polled := false, values := [] }
    some ({ reg with znodes := reg.znodes ++ [node] },
      emit "node added" [.int (Int.ofNat notif.nodeid)])
  | .Type_NodeProtocolInfo => some (reg, Output.nil)
  | .Type_NodeNaming =>
    some (reg, emit "node naming"
      [.int (Int.ofNat notif.nodeid), .obj (node_info_object m notif.homeid notif.nodeid)])
  | .Type_PollingEnabled => some (reg, Output.nil)
  | .Type_PollingDisabled => some (reg, Output.nil)
  | .Type_ValueAdded =>
    match notif.values.head? with
    | none => none
    | some value =>
      let valobj := zwaveValue2v8Value m value
      let znodes :=
        match get_node_info reg.znodes notif.nodeid with
        | some _ =>
          write_node_info reg.znodes notif.nodeid
            (fun node => { node with values := node.values ++ [value] })
        | none => reg.znodes
      some ({ reg with znodes := znodes },
        { events := [{ name := "value added",
                       args := [.int (Int.ofNat notif.nodeid),
                                .int (Int.ofNat value.GetCommandClassId), .obj valobj.1] }],
          stderr := valobj.2, handled := [] })
  | .Type_ValueChanged =>
    match notif.values.head? with
    | none => none
    | some value =>
      let valobj := zwaveValue2v8Value m value
      some (reg,
        { events := [{ name := "value changed",
                       args := [.int (Int.ofNat notif.nodeid),
                                .int (Int.ofNat value.GetCommandClassId), .obj valobj.1] }],
          stderr := valobj.2, handled := [] })
  | .Type_ValueRefreshed =>
    match notif.values.head? with
    | none => none
    | some value =>
      let valobj := zwaveValue2v8Value m value
      some (reg,
        { events := [{ name := "value refreshed",
                       args := [.int (Int.ofNat notif.nodeid),
                                .int (Int.ofNat value.GetCommandClassId), .obj valobj.1] }],
          stderr := valobj.2, handled := [] })
  | .Type_ValueRemoved =>
    match notif.values.head? with
    | none => none
    | some value =>
      let znodes :=
        match get_node_info reg.znodes notif.nodeid with
        | some _ =>
          write_node_info reg.znodes notif.nodeid
            (fun node => { node with values := values_erase node.values value })
        | none => reg.znodes
      some ({ reg with znodes := znodes },
        emit "value removed"
          [.int (Int.ofNat notif.nodeid), .int (Int.ofNat value.GetCommandClassId),
           .int (Int.ofNat value.GetInstance), .int (Int.ofNat value.GetIndex)])
  | .Type_EssentialNodeQueriesComplete =>
    some (reg, emit "node available"
      [.int (Int.ofNat notif.nodeid), .obj (node_info_object m notif.homeid notif.nodeid)])
  | .Type_NodeQueriesComplete =>
    some (reg, emit "node ready"
      [.int (Int.ofNat notif.nodeid), .obj (node_info_object m notif.homeid notif.nodeid)])
  | .Type_AwakeNodesQueried => some (reg, emit "scan complete" [])
  | .Type_AllNodesQueried => some (reg, emit "scan complete" [])
  | .Type_AllNodesQueriedSomeDead => some (reg, emit "scan complete" [])
  | .Type_NodeEvent =>
    some (reg, emit "node event"
      [.int (Int.ofNat notif.nodeid), .int (Int.ofNat notif.event)])
  | .Type_SceneEvent =>
    some (reg, emit "scene event"
      [.int (Int.ofNat notif.nodeid), .int (Int.ofNat notif.sceneid)])
  | .Type_Notification =>
    some (reg, emit "notification"
      [.int (Int.ofNat notif.nodeid), .int (Int.ofNat notif.notification)])
  | .Type_Group => some (reg, Output.nil)
  | t => some (reg, { events := [], stderr := [.unhandled_notification t], handled := [] })

/-- The loop `while (!zqueue.empty())` of `async_cb_handler`: take the front
record, run the switch on it, pop it.  The result is the queue at loop exit, the
registry and everything handed out. -/
def async_cb_while (m : Manager) :
    List NotifInfo → Registry → Output → Option (List NotifInfo × Registry × Output)
  | [], reg, out => some ([], reg, out)
  | notif :: rest, reg, out =>
    match async_cb_switch m notif reg with
    | none => none
    | some (reg1, o) =>
      async_cb_while m rest reg1
        (Output.append out (Output.append { Output.nil with handled := [notif] } o))

/-- The function `async_cb_handler`: one drain of the queue, run as a whole under
`zqueue_mutex`. -/
def async_cb_handler (m : Manager) (g : Globals) : Option (Globals × Output) :=
  match async_cb_while m g.zqueue g.reg Output.nil with
  | none => none
  | some (zqueue, reg, out) => some ({ zqueue := zqueue, reg := reg }, out)

/-! ## The command `getScenes` -/

/-- The rebuild loop of `OZW::GetScenes`: for `i` from the given index, `count`
times, read `sceneids[i]` and push a fresh `SceneInfo`.  `none` on a read past
the end of the array the controller returned. -/
def GetScenes_loop (m : Manager) (sceneids : List Nat) :
    Nat → Nat → List SceneInfo → Option (List SceneInfo)
  | 0, _, zscenes => some zscenes
  | count + 1, i, zscenes =>
    match sceneids[i]? with
    | none => none
    | some sceneid =>
      GetScenes_loop m sceneids count (i + 1)
        (zscenes ++ [{ sceneid := sceneid, label := m.GetSceneLabel sceneid, values := [] }])

/-- The host object `GetScenes` builds for one scene. -/
def scene_object (scene : SceneInfo) : V8Object :=
  let info : V8Object := []
  let info := Object_Set info "sceneid" (.int (Integer_New (Int.ofNat scene.sceneid)))
  let info := Object_Set info "label" (.str scene.label)
  info

/-- The command `OZW::GetScenes`. -/
def GetScenes (m : Manager) (reg : Registry) : Option (Registry × Output) :=
  let numscenes := m.GetNumScenes
  let rebuilt : Option (List SceneInfo) :=
    if numscenes ≠ reg.zscenes.length then
      GetScenes_loop m m.GetAllScenes numscenes 0 []
    else some reg.zscenes
  match rebuilt with
  | none => none
  | some zscenes =>
    some ({ reg with zscenes := zscenes },
      emit "scenes list" [.objArray (zscenes.map scene_object)])

/-! ## The command surface -/

/-- A value the host passes as a command argument, given by the results of the
conversions the commands apply to it. -/
structure JsValue where
  ToBoolean : Bool
  ToInteger : Int
  ToNumber : Rat
  ToString : String
  deriving DecidableEq, Repr

/-- The scalar handed to an overload of `Manager::SetValue` or
`Manager::AddSceneValue`. -/
inductive Scalar where
  | bool (val : Bool)
  | byte (val : Nat)
  | float (val : Rat)
  | int (val : Int)
  | short (val : Int)
  | string (val : String)
  deriving DecidableEq, Repr

/-- A call forwarded to the controller library that changes its state. -/
inductive ControllerCall where
  | RemoveDriver (path : String)
  | RemoveWatcher
  | Manager_Destroy
  | Options_Destroy
  | SetValue (value : ValueID) (val : Scalar)
  | EnablePoll (value : ValueID) (intensity : Nat)
  | DisablePoll (value : ValueID)
  | RemoveScene (sceneid : Nat)
  | AddSceneValue (sceneid : Nat) (value : ValueID) (val : Scalar)
  | RemoveSceneValue (sceneid : Nat) (value : ValueID)
  | ActivateScene (sceneid : Nat)
  deriving DecidableEq, Repr

/-- What a command leaves behind: the registry, what it hands to the host, and
the calls it forwarded to the controller, in order. -/
structure CommandResult where
  reg : Registry
  out : Output
  calls : List ControllerCall
  deriving DecidableEq, Repr

/-- The conversion of an integer to `uint8_t`. -/
def to_uint8 (x : Int) : Nat :=
  (x % 256).toNat

/-- The conversion of an integer to `int16_t`. -/
def to_int16 (x : Int) : Int :=
  (x + 32768) % 65536 - 32768

/-- The conversion of an integer to `int32_t`. -/
def to_int32 (x : Int) : Int :=
  (x + 2147483648) % 4294967296 - 2147483648

/-- The `switch ((*vit).GetType())` of `OZW::SetValue` and `OZW::AddSceneValue`:
the scalar converted from the host argument, or nothing for a type whose case is
empty or absent.  The narrowing of the number to `float` is not modelled. -/
def switch_scalar (type : ValueType) (arg : JsValue) : Option Scalar :=
  match type with
  | .ValueType_Bool => some (.bool arg.ToBoolean)
  | .ValueType_Byte => some (.byte (to_uint8 arg.ToInteger))
  | .ValueType_Decimal => some (.float arg.ToNumber)
  | .ValueType_Int => some (.int (to_int32 arg.ToInteger))
  | .ValueType_List => some (.string arg.ToString)
  | .ValueType_Short => some (.short (to_int16 arg.ToInteger))
  | .ValueType_String => some (.string arg.ToString)
  | .ValueType_Schedule => none
  | .ValueType_Button => none
  | _ => none

/-- The function `get_scene_info`: the first record of `zscenes` with the given
`sceneid`, or `NULL`. -/
def get_scene_info : List SceneInfo → Nat → Option SceneInfo
  | [], _ => none
  | scene :: rest, sceneid =>
    if scene.sceneid = sceneid then some scene else get_scene_info rest sceneid

/-- A write through the pointer `get_scene_info` returns. -/
def write_scene_info : List SceneInfo → Nat → (SceneInfo → SceneInfo) → List SceneInfo
  | [], _, _ => []
  | scene :: rest, sceneid, f =>
    if scene.sceneid = sceneid then f scene :: rest
    else scene :: write_scene_info rest sceneid f

/-- The call `zscenes.remove(scene)` with the pointer `get_scene_info` returns:
the record it points to leaves the table. -/
def remove_scene_info : List SceneInfo → Nat → List SceneInfo
  | [], _ => []
  | scene :: rest, sceneid =>
    if scene.sceneid = sceneid then rest else scene :: remove_scene_info rest sceneid

/-- A command that does nothing. -/
def CommandResult.nothing (reg : Registry) : CommandResult :=
  { reg := reg, out := Output.nil, calls := [] }

/-- The command `OZW::Disconnect`. -/
def Disconnect (path : String) (reg : Registry) : CommandResult :=
  { reg := reg, out := Output.nil,
    calls := [.RemoveDriver path, .RemoveWatcher, .Manager_Destroy, .Options_Destroy] }

/-- The loop of `OZW::SetValue` over the values of the node: every value that
matches class, instance and index goes through the type switch; the `break`s
leave the switch, not the loop. -/
def SetValue_loop (comclass instance_ index : Nat) (arg : JsValue) :
    List ValueID → List ControllerCall
  | [] => []
  | vit :: rest =>
    (if vit.GetCommandClassId = comclass ∧ vit.GetInstance = instance_ ∧ vit.GetIndex = index then
      match switch_scalar vit.GetType arg with
      | some val => [ControllerCall.SetValue vit val]
      | none => []
    else []) ++ SetValue_loop comclass instance_ index arg rest

/-- The command `OZW::SetValue`. -/
def SetValue (reg : Registry) (nodeid comclass instance_ index : Nat) (arg : JsValue) :
    CommandResult :=
  match get_node_info reg.znodes nodeid with
  | some node =>
    { reg := reg, out := Output.nil,
      calls := SetValue_loop comclass instance_ index arg node.values }
  | none => CommandResult.nothing reg

/-- The loop of `OZW::EnablePoll`: the first value of the command class is
polled, then the loop is left. -/
def EnablePoll_loop (comclass : Nat) : List ValueID → List ControllerCall
  | [] => []
  | vit :: rest =>
    if vit.GetCommandClassId = comclass then [ControllerCall.EnablePoll vit 1]
    else EnablePoll_loop comclass rest

/-- The command `OZW::EnablePoll`. -/
def EnablePoll (reg : Registry) (nodeid comclass : Nat) : CommandResult :=
  match get_node_info reg.znodes nodeid with
  | some node => { reg := reg, out := Output.nil, calls := EnablePoll_loop comclass node.values }
  | none => CommandResult.nothing reg

/-- The loop of `OZW::DisablePoll`. -/
def DisablePoll_loop (comclass : Nat) : List ValueID → List ControllerCall
  | [] => []
  | vit :: rest =>
    if vit.GetCommandClassId = comclass then [ControllerCall.DisablePoll vit]
    else DisablePoll_loop comclass rest

/-- The command `OZW::DisablePoll`. -/
def DisablePoll (reg : Registry) (nodeid comclass : Nat) : CommandResult :=
  match get_node_info reg.znodes nodeid with
  | some node => { reg := reg, out := Output.nil, calls := DisablePoll_loop comclass node.values }
  | none => CommandResult.nothing reg

/-- The command `OZW::RemoveScene`. -/
def RemoveScene (reg : Registry) (sceneid : Nat) : CommandResult :=
  match get_scene_info reg.zscenes sceneid with
  | some _ =>
    { reg := { reg with zscenes := remove_scene_info reg.zscenes sceneid },
      out := Output.nil, calls := [.RemoveScene sceneid] }
  | none => CommandResult.nothing reg

/-- The loop of `OZW::AddSceneValue` over the values of the node; like the loop
of `OZW::SetValue` it visits every value. -/
def AddSceneValue_loop (sceneid comclass instance_ index : Nat) (arg : JsValue) :
    List ValueID → List ControllerCall
  | [] => []
  | vit :: rest =>
    (if vit.GetCommandClassId = comclass ∧ vit.GetInstance = instance_ ∧ vit.GetIndex = index then
      match switch_scalar vit.GetType arg with
      | some val => [ControllerCall.AddSceneValue sceneid vit val]
      | none => []
    else []) ++ AddSceneValue_loop sceneid comclass instance_ index arg rest

/-- The command `OZW::AddSceneValue`. -/
def AddSceneValue (reg : Registry) (sceneid nodeid comclass instance_ index : Nat)
    (arg : JsValue) : CommandResult :=
  match get_node_info reg.znodes nodeid with
  | some node =>
    { reg := reg, out := Output.nil,
      calls := AddSceneValue_loop sceneid comclass instance_ index arg node.values }
  | none => CommandResult.nothing reg

/-- The loop of `OZW::RemoveSceneValue` over the values of the scene: the first
value that matches node, class, instance and index is removed at the controller
and erased from the list, then the loop is left.  The result is the calls and
the list after the loop. -/
def RemoveSceneValue_loop (sceneid nodeid comclass instance_ index : Nat) :
    List ValueID → List ControllerCall × List ValueID
  | [] => ([], [])
  | vit :: rest =>
    if vit.GetNodeId = nodeid ∧ vit.GetCommandClassId = comclass ∧
        vit.GetInstance = instance_ ∧ vit.GetIndex = index then
      ([ControllerCall.RemoveSceneValue sceneid vit], rest)
    else
      ((RemoveSceneValue_loop sceneid nodeid comclass instance_ index rest).1,
        vit :: (RemoveSceneValue_loop sceneid nodeid comclass instance_ index rest).2)

/-- The command `OZW::RemoveSceneValue`. -/
def RemoveSceneValue (reg : Registry) (sceneid nodeid comclass instance_ index : Nat) :
    CommandResult :=
  match get_scene_info reg.zscenes sceneid with
  | some scene =>
    { reg := { reg with zscenes := write_scene_info reg.zscenes sceneid (fun sc =>
        { sc with values :=
            (RemoveSceneValue_loop sceneid nodeid comclass instance_ index sc.values).2 }) },
      out := Output.nil,
      calls := (RemoveSceneValue_loop sceneid nodeid comclass instance_ index scene.values).1 }
  | none => CommandResult.nothing reg

/-- The command `OZW::ActivateScene`. -/
def ActivateScene (reg : Registry) (sceneid : Nat) : CommandResult :=
  match get_scene_info reg.zscenes sceneid with
  | some _ => { reg := reg, out := Output.nil, calls := [.ActivateScene sceneid] }
  | none => CommandResult.nothing reg

/-- The command `OZW::GetNodeNeighbors`: the neighbours the controller reports
for the node of the current home network, handed to the host. -/
def GetNodeNeighbors (m : Manager) (reg : Registry) (nodeid : Nat) : CommandResult :=
  let neighbors := m.GetNodeNeighbors reg.homeid nodeid
  { reg := reg,
    out := emit "neighbors"
      [.int (Int.ofNat nodeid), .intArray (neighbors.map Int.ofNat)],
    calls := [] }

/-- The static functions of `OZW` that take host arguments. -/
inductive OZW_Function where
  | Connect
  | Disconnect
  | SetValue
  | SetLocation
  | SetName
  | EnablePoll
  | DisablePoll
  | HardReset
  | SoftReset
  | SwitchAllOn
  | SwitchAllOff
  | CreateScene
  | RemoveScene
  | GetScenes
  | AddSceneValue
  | RemoveSceneValue
  | SceneGetValues
  | ActivateScene
  | HealNetworkNode
  | HealNetwork
  | GetNodeNeighbors
  | SetConfigParam
  deriving DecidableEq, Repr

/-- The function `init`: the `NODE_SET_PROTOTYPE_METHOD` lines, each a host
method name with the function it is bound to, in source order. -/
def init : List (String × OZW_Function) :=
  [("connect", .Connect),
   ("disconnect", .Disconnect),
   ("setValue", .SetValue),
   ("setLocation", .SetLocation),
   ("setName", .SetName),
   ("enablePoll", .EnablePoll),
   ("disablePoll", .EnablePoll),
   ("hardReset", .HardReset),
   ("softReset", .SoftReset),
   ("allOn", .SwitchAllOn),
   ("allOff", .SwitchAllOff),
   ("createScene", .CreateScene),
   ("removeScene", .RemoveScene),
   ("getScenes", .GetScenes),
   ("addSceneValue", .AddSceneValue),
   ("removeSceneValue", .RemoveSceneValue),
   ("sceneGetValues", .SceneGetValues),
   ("activateScene", .ActivateScene),
   ("healNetworkNode", .HealNetworkNode),
   ("healNetwork", .HealNetwork),
   ("getNeighbors", .GetNodeNeighbors),
   ("setConfigParam", .SetConfigParam)]

/-- The function a host method name is bound to. -/
def prototype_method (name : String) : Option OZW_Function :=
  match init.find? (fun entry => entry.1 = name) with
  | some entry => some entry.2
  | none => none

/-- A call of the host method `name` with a node id and a command class: the
function bound to the name runs, when it is one of the two polling functions. -/
def host_poll_call (name : String) (reg : Registry) (nodeid comclass : Nat) :
    Option CommandResult :=
  match prototype_method name with
  | some .EnablePoll => some (EnablePoll reg nodeid comclass)
  | some .DisablePoll => some (DisablePoll reg nodeid comclass)
  | _ => none

/-! ## Locks: the order of lock operations, controller calls and emissions -/

/-- The three mutexes of the bridge. -/
inductive Mutex where
  | zqueue_mutex
  | znodes_mutex
  | zscenes_mutex
  deriving DecidableEq, Repr

/-- A step of bridge code that matters for the lock discipline: taking a mutex
(the construction of a `scoped_lock`), releasing it (the end of the scope of the
`scoped_lock`), a call of a function of the controller library, and a
`MakeCallback(context_obj, "emit", ...)`. -/
inductive Action where
  | lock (mu : Mutex)
  | unlock (mu : Mutex)
  | controller (call : String)
  | emit (name : String)
  deriving DecidableEq, Repr

/-- The mutexes held after a sequence of actions, from the given held ones. -/
def held_after : List Mutex → List Action → List Mutex
  | held, [] => held
  | held, .lock mu :: rest => held_after (mu :: held) rest
  | held, .unlock mu :: rest => held_after (held.erase mu) rest
  | held, .controller _ :: rest => held_after held rest
  | held, .emit _ :: rest => held_after held rest

/-- The mutexes held at each controller call and each emission of a sequence of
actions, in order. -/
def held_at_calls : List Mutex → List Action → List (List Mutex)
  | _, [] => []
  | held, .lock mu :: rest => held_at_calls (mu :: held) rest
  | held, .unlock mu :: rest => held_at_calls (held.erase mu) rest
  | held, .controller _ :: rest => held :: held_at_calls held rest
  | held, .emit _ :: rest => held :: held_at_calls held rest

/-- The calls of `OpenZWave::Manager::Get()` in `zwaveValue2v8Value`, in source
order. -/
def zwaveValue2v8Value_trace (value : ValueID) : List Action :=
  [.controller "GetValueLabel", .controller "GetValueUnits", .controller "IsValueReadOnly",
   .controller "IsValueWriteOnly", .controller "GetValueMin", .controller "GetValueMax"] ++
  match value.GetType with
  | .ValueType_Bool => [.controller "GetValueAsBool"]
  | .ValueType_Byte => [.controller "GetValueAsByte"]
  | .ValueType_Decimal => [.controller "GetValueAsFloat"]
  | .ValueType_Int => [.controller "GetValueAsInt"]
  | .ValueType_List => [.controller "GetValueListItems", .controller "GetValueListSelection"]
  | .ValueType_Short => [.controller "GetValueAsShort"]
  | .ValueType_String => [.controller "GetValueAsString"]
  | _ => []

/-- The calls of `OpenZWave::Manager::Get()` in `zwaveSceneValue2v8Value`, in
source order. -/
def zwaveSceneValue2v8Value_trace (value : ValueID) : List Action :=
  [.controller "GetValueLabel", .controller "GetValueUnits", .controller "IsValueReadOnly",
   .controller "IsValueWriteOnly", .controller "GetValueMin", .controller "GetValueMax"] ++
  match value.GetType with
  | .ValueType_Bool => [.controller "SceneGetValueAsBool"]
  | .ValueType_Byte => [.controller "SceneGetValueAsByte"]
  | .ValueType_Decimal => [.controller "SceneGetValueAsFloat"]
  | .ValueType_Int => [.controller "SceneGetValueAsInt"]
  | .ValueType_List => [.controller "GetValueListItems", .controller "SceneGetValueListSelection"]
  | .ValueType_Short => [.controller "SceneGetValueAsShort"]
  | .ValueType_String => [.controller "SceneGetValueAsString"]
  | _ => []

/-- The eight controller queries behind the descriptive block of a node. -/
def node_info_trace : List Action :=
  [.controller "GetNodeManufacturerName", .controller "GetNodeManufacturerId",
   .controller "GetNodeProductName", .controller "GetNodeProductType",
   .controller "GetNodeProductId", .controller "GetNodeType", .controller "GetNodeName",
   .controller "GetNodeLocation"]

/-- The actions of one round of the `switch (notif->type)` of `async_cb_handler`.
`none` when `notif->values.front()` is taken of an empty list. -/
def async_cb_switch_trace (notif : NotifInfo) (reg : Registry) : Option (List Action) :=
  match notif.type with
  | .Type_DriverReady => some [.emit "driver ready"]
  | .Type_DriverFailed => some [.emit "driver failed"]
  | .Type_NodeNew => some []
  | .Type_NodeAdded =>
    some [.lock .znodes_mutex, .unlock .znodes_mutex, .emit "node added"]
  | .Type_NodeProtocolInfo => some []
  | .Type_NodeNaming => some (node_info_trace ++ [.emit "node naming"])
  | .Type_PollingEnabled => some []
  | .Type_PollingDisabled => some []
  | .Type_ValueAdded =>
    match notif.values.head? with
    | none => none
    | some value =>
      some (zwaveValue2v8Value_trace value ++
        (match get_node_info reg.znodes notif.nodeid with
         | some _ => [.lock .znodes_mutex, .unlock .znodes_mutex]
         | none => []) ++
        [.emit "value added"])
  | .Type_ValueChanged =>
    match notif.values.head? with
    | none => none
    | some value => some (zwaveValue2v8Value_trace value ++ [.emit "value changed"])
  | .Type_ValueRefreshed =>
    match notif.values.head? with
    | none => none
    | some value => some (zwaveValue2v8Value_trace value ++ [.emit "value refreshed"])
  | .Type_ValueRemoved =>
    match notif.values.head? with
    | none => none
    | some _ => some [.emit "value removed"]
  | .Type_EssentialNodeQueriesComplete => some (node_info_trace ++ [.emit "node available"])
  | .Type_NodeQueriesComplete => some (node_info_trace ++ [.emit "node ready"])
  | .Type_AwakeNodesQueried => some [.emit "scan complete"]
  | .Type_AllNodesQueried => some [.emit "scan complete"]
  | .Type_AllNodesQueriedSomeDead => some [.emit "scan complete"]
  | .Type_NodeEvent => some [.emit "node event"]
  | .Type_SceneEvent => some [.emit "scene event"]
  | .Type_Notification => some [.emit "notification"]
  | .Type_Group => some []
  | _ => some []

/-- The actions of the loop of `async_cb_handler` over the queue; the registry
changes from round to round as `async_cb_switch` says. -/
def async_cb_while_trace (m : Manager) : List NotifInfo → Registry → Option (List Action)
  | [], _ => some []
  | notif :: rest, reg =>
    match async_cb_switch_trace notif reg, async_cb_switch m notif reg with
    | some t, some (reg1, _) =>
      match async_cb_while_trace m rest reg1 with
      | some ts => some (t ++ ts)
      | none => none
    | _, _ => none

/-- The actions of `async_cb_handler`: the `scoped_lock` on `zqueue_mutex` is
built before the loop and lives to the end of the function. -/
def async_cb_handler_trace (m : Manager) (g : Globals) : Option (List Action) :=
  match async_cb_while_trace m g.zqueue g.reg with
  | some ts => some ([.lock .zqueue_mutex] ++ ts ++ [.unlock .zqueue_mutex])
  | none => none

/-- A run of one of the static functions of `OZW` on converted host
arguments. -/
inductive Command where
  | Connect (path : String)
  | Disconnect (path : String)
  | SetValue (nodeid comclass instance_ index : Nat) (arg : JsValue)
  | SetLocation (nodeid : Nat) (location : String)
  | SetName (nodeid : Nat) (name : String)
  | EnablePoll (nodeid comclass : Nat)
  | DisablePoll (nodeid comclass : Nat)
  | HardReset
  | SoftReset
  | SwitchAllOn
  | SwitchAllOff
  | CreateScene (label : String)
  | RemoveScene (sceneid : Nat)
  | GetScenes
  | AddSceneValue (sceneid nodeid comclass instance_ index : Nat) (arg : JsValue)
  | RemoveSceneValue (sceneid nodeid comclass instance_ index : Nat)
  | SceneGetValues (sceneid : Nat)
  | ActivateScene (sceneid : Nat)
  | HealNetworkNode (nodeid : Nat) (doRR : Bool)
  | HealNetwork
  | GetNodeNeighbors (nodeid : Nat)
  | SetConfigParam (homeid nodeid param : Nat) (value : Int) (size : Option Nat)

/-- The actions of a command, in source order. -/
def Command.trace (m : Manager) (reg : Registry) : Command → List Action
  | .Connect _ =>
    [.controller "Manager::Create", .controller "AddWatcher", .controller "AddDriver",
     .emit "connected"]
  | .Disconnect _ =>
    [.controller "RemoveDriver", .controller "RemoveWatcher", .controller "Manager::Destroy",
     .controller "Options::Destroy"]
  | .SetValue nodeid comclass instance_ index arg =>
    (Ozw.SetValue reg nodeid comclass instance_ index arg).calls.map (fun _ => .controller "SetValue")
  | .SetLocation _ _ => [.controller "SetNodeLocation"]
  | .SetName _ _ => [.controller "SetNodeName"]
  | .EnablePoll nodeid comclass =>
    (Ozw.EnablePoll reg nodeid comclass).calls.map (fun _ => .controller "EnablePoll")
  | .DisablePoll nodeid comclass =>
    (Ozw.DisablePoll reg nodeid comclass).calls.map (fun _ => .controller "DisablePoll")
  | .HardReset => [.controller "ResetController"]
  | .SoftReset => [.controller "SoftReset"]
  | .SwitchAllOn => [.controller "SwitchAllOn"]
  | .SwitchAllOff => [.controller "SwitchAllOff"]
  | .CreateScene _ =>
    [.controller "CreateScene"] ++
    (if m.CreateScene > 0 then
      [.controller "SetSceneLabel", .lock .zscenes_mutex, .unlock .zscenes_mutex]
    else [])
  | .RemoveScene sceneid =>
    match get_scene_info reg.zscenes sceneid with
    | some _ => [.controller "RemoveScene", .lock .zscenes_mutex, .unlock .zscenes_mutex]
    | none => []
  | .GetScenes =>
    [.controller "GetNumScenes"] ++
    (if m.GetNumScenes ≠ reg.zscenes.length then
      [.lock .zscenes_mutex, .unlock .zscenes_mutex, .controller "GetAllScenes"] ++
      ((List.range m.GetNumScenes).map (fun _ =>
        [Action.controller "GetSceneLabel", .lock .zscenes_mutex, .unlock .zscenes_mutex])).flatten
    else []) ++
    [.emit "scenes list"]
  | .AddSceneValue sceneid nodeid comclass instance_ index arg =>
    (Ozw.AddSceneValue reg sceneid nodeid comclass instance_ index arg).calls.map
      (fun _ => .controller "AddSceneValue")
  | .RemoveSceneValue sceneid nodeid comclass instance_ index =>
    (Ozw.RemoveSceneValue reg sceneid nodeid comclass instance_ index).calls.map
      (fun _ => .controller "RemoveSceneValue")
  | .SceneGetValues sceneid =>
    [.controller "SceneGetValues"] ++
    (match get_scene_info reg.zscenes sceneid with
     | some _ =>
       ((m.SceneGetValues sceneid).map (fun value =>
         [Action.lock .zscenes_mutex] ++ zwaveSceneValue2v8Value_trace value ++
           [Action.unlock .zscenes_mutex])).flatten ++
       [.emit "scene values list"]
     | none => [])
  | .ActivateScene sceneid =>
    (Ozw.ActivateScene reg sceneid).calls.map (fun _ => .controller "ActivateScene")
  | .HealNetworkNode _ _ => [.controller "HealNetworkNode"]
  | .HealNetwork => [.controller "HealNetwork"]
  | .GetNodeNeighbors _ => [.controller "GetNodeNeighbors", .emit "neighbors"]
  | .SetConfigParam _ _ _ _ _ => [.controller "SetConfigParam"]

/-! ## Interleavings of the producer and the consumer -/

/-- One atomic step on the queue: `cb` run by the producer on a notification, or one
run of `async_cb_handler` against the controller state of that moment.  Both
run under `zqueue_mutex`, so neither is interrupted by the other. -/
inductive Step where
  | enqueue (n : Notification)
  | drain (m : Manager)

/-- The effect of one step. -/
def Step.run (s : Step) (g : Globals) : Option (Globals × Output) :=
  match s with
  | .enqueue n => some (cb n g, Output.nil)
  | .drain m => async_cb_handler m g

/-- A sequence of steps, run from the given globals; the outputs are appended
to `out`. -/
def run_steps : List Step → Globals → Output → Option (Globals × Output)
  | [], g, out => some (g, out)
  | s :: rest, g, out =>
    match s.run g with
    | none => none
    | some (g1, o) => run_steps rest g1 (Output.append out o)

/-- The records enqueued by a sequence of steps, in enqueue order. -/
def enqueued : List Step → List NotifInfo
  | [] => []
  | .enqueue n :: rest => cb_notif n :: enqueued rest
  | .drain _ :: rest => enqueued rest

/-- The deliveries the specification asks of a sequence of steps: a drain
delivers the records enqueued since the drain before it, in enqueue order, each
once, with the controller state of that drain; a record not yet followed by a
drain is not delivered.  The first argument is the list of records waiting. -/
def spec_deliveries : List NotifInfo → List Step → List (Manager × NotifInfo)
  | _, [] => []
  | pending, .enqueue n :: rest => spec_deliveries (pending ++ [cb_notif n]) rest
  | pending, .drain m :: rest => pending.map (fun r => (m, r)) ++ spec_deliveries [] rest

/-- The normalizer run on a list of deliveries, one after the other: the switch
of `async_cb_handler` on each record, from the given registry, with the events
and the diagnostics appended in delivery order.  No queue takes part. -/
def spec_normalize_in_order :
    List (Manager × NotifInfo) → Registry → List Event → List Diag →
      Option (Registry × List Event × List Diag)
  | [], reg, events, stderr => some (reg, events, stderr)
  | d :: rest, reg, events, stderr =>
    match async_cb_switch d.1 d.2 reg with
    | none => none
    | some (reg1, o) => spec_normalize_in_order rest reg1 (events ++ o.events) (stderr ++ o.stderr)

/-- A controller that answers every query with an empty or zero result. -/
def silent_manager : Manager :=
  { GetNodeManufacturerName := fun _ _ => "",
    GetNodeManufacturerId := fun _ _ => "",
    GetNodeProductName := fun _ _ => "",
    GetNodeProductType := fun _ _ => "",
    GetNodeProductId := fun _ _ => "",
    GetNodeType := fun _ _ => "",
    GetNodeName := fun _ _ => "",
    GetNodeLocation := fun _ _ => "",
    GetTypeNameFromEnum := fun _ => "",
    GetGenreNameFromEnum := fun _ => "",
    GetValueLabel := fun _ => "",
    GetValueUnits := fun _ => "",
    IsValueReadOnly := fun _ => false,
    IsValueWriteOnly := fun _ => false,
    GetValueMin := fun _ => 0,
    GetValueMax := fun _ => 0,
    GetValueAsBool := fun _ => false,
    GetValueAsByte := fun _ => 0,
    GetValueAsFloat := fun _ => 0,
    GetValueAsInt := fun _ => 0,
    GetValueAsShort := fun _ => 0,
    GetValueAsString := fun _ => "",
    GetValueListItems := fun _ => [],
    GetValueListSelection := fun _ => "",
    SceneGetValueAsBool := fun _ _ => false,
    SceneGetValueAsByte := fun _ _ => 0,
    SceneGetValueAsFloat := fun _ _ => 0,
    SceneGetValueAsInt := fun _ _ => 0,
    SceneGetValueAsShort := fun _ _ => 0,
    SceneGetValueAsString := fun _ _ => "",
    SceneGetValueListSelection := fun _ _ => "",
    SceneGetValues := fun _ => [],
    GetNumScenes := 0,
    GetAllScenes := [],
    GetSceneLabel := fun _ => "",
    CreateScene := 0,
    GetNodeNeighbors := fun _ _ => [] }

/-! ## Concrete data for the worked cases -/

/-- A byte value of node 5: command class 38, instance 1, index 0. -/
def value_A : ValueID :=
  { GetHomeId := 100, GetNodeId := 5, GetGenre := 1, GetCommandClassId := 38,
    GetInstance := 1, GetIndex := 0, GetType := ValueType.ValueType_Byte, GetId := 1407375493578753 }

/-- A controller in which every byte value reads 7. -/
def byte7_manager : Manager :=
  { silent_manager with GetValueAsByte := fun _ => 7 }

/-- A notification of the given type for home network 100 and node 5, carrying
`value_A`. -/
def notification_of (type : NotificationType) : Notification :=
  { GetType := type, GetHomeId := 100, GetNodeId := 5, GetValueID := value_A,
    GetGroupIdx := 0, GetEvent := 0, GetButtonId := 0, GetSceneId := 0, GetNotification := 0 }

/-- A queue record of the given type for the given home network and node,
carrying the given value. -/
def record_of (type : NotificationType) (homeid nodeid : Nat) (value : ValueID) : NotifInfo :=
  { type := type, homeid := homeid, nodeid := nodeid, groupidx := 0, event := 0,
    buttonid := 0, sceneid := 0, notification := 0, values := [value] }

/-- A decimal value of node 5: command class 49, instance 1, index 1. -/
def value_D : ValueID :=
  { GetHomeId := 100, GetNodeId := 5, GetGenre := 1, GetCommandClassId := 49,
    GetInstance := 1, GetIndex := 1, GetType := ValueType.ValueType_Decimal, GetId := 1407375493791762 }

/-- A button value of node 5: command class 38, instance 1, index 2. -/
def value_B : ValueID :=
  { GetHomeId := 100, GetNodeId := 5, GetGenre := 1, GetCommandClassId := 38,
    GetInstance := 1, GetIndex := 2, GetType := ValueType.ValueType_Button, GetId := 1407375493578792 }

/-- A controller in which every decimal value reads 21.5, live and in every
scene. -/
def decimal_manager : Manager :=
  { silent_manager with
    GetValueAsFloat := fun _ => 43 / 2,
    SceneGetValueAsFloat := fun _ _ => 43 / 2 }

/-- A registry that knows node 5 with the single value `value_A`, and no scene. -/
def registry_node5 : Registry :=
  { znodes := [{ homeid := 100, nodeid := 5, polled := false, values := [value_A] }],
    zscenes := [], homeid := 100 }

/-- A registry in which node 5 holds `value_A` twice. -/
def registry_node5_twice : Registry :=
  { znodes := [{ homeid := 100, nodeid := 5, polled := false, values := [value_A, value_A] }],
    zscenes := [], homeid := 100 }

/-- A host argument that converts to true, 1 and "1". -/
def js_one : JsValue :=
  { ToBoolean := true, ToInteger := 1, ToNumber := 1, ToString := "1" }

/-- A registry that knows node 5 with the single value `value_A`, and scene 1
with an empty value list. -/
def registry_scene1 : Registry :=
  { znodes := [{ homeid := 100, nodeid := 5, polled := false, values := [value_A] }],
    zscenes := [{ sceneid := 1, label := "", values := [] }], homeid := 100 }

/-- The registry `registry_scene1` with `value_A` in the value list of scene 1. -/
def registry_scene1_filled : Registry :=
  { znodes := [{ homeid := 100, nodeid := 5, polled := false, values := [value_A] }],
    zscenes := [{ sceneid := 1, label := "", values := [value_A] }], homeid := 100 }

/-- A byte value whose node id, class id, instance and index all have three
digits: node 100, command class 112, instance 100, index 101. -/
def value_W : ValueID :=
  { GetHomeId := 100, GetNodeId := 100, GetGenre := 1, GetCommandClassId := 112,
    GetInstance := 100, GetIndex := 101, GetType := ValueType.ValueType_Byte,
    GetId := 429496731370423825 }

/-! ## Definitions used in the proofs -/

/-- The node table after the dispatch has run on one record. -/
def znodes_after (notif : NotifInfo) (znodes : List NodeInfo) : List NodeInfo :=
  match notif.type, notif.values.head? with
  | .Type_NodeAdded, _ =>
    znodes ++ [{ homeid := notif.homeid, nodeid := notif.nodeid, polled := false, values := [] }]
  | .Type_ValueAdded, some value =>
    write_node_info znodes notif.nodeid
      (fun node => { node with values := node.values ++ [value] })
  | .Type_ValueRemoved, some value =>
    write_node_info znodes notif.nodeid
      (fun node => { node with values := values_erase node.values value })
  | _, _ => znodes

/-- The invariant behind C9: every value in the list of a record carries the
node id of that record, and a record that comes after another record with the same
node id has an empty value list. -/
def owns_values (znodes : List NodeInfo) : Prop :=
  (∀ node ∈ znodes, ∀ v ∈ node.values, v.GetNodeId = node.nodeid) ∧
  znodes.Pairwise (fun a b => a.nodeid = b.nodeid → b.values = [])

/-- A sequence of actions that runs at a fixed set of held mutexes: it gives
back every mutex it takes, and at each of its controller calls and emissions
exactly the mutexes held at its start are held. -/
def runs_at (held : List Mutex) (t : List Action) : Prop :=
  held_after held t = held ∧ ∀ x ∈ held_at_calls held t, x = held

/-! ## Basic facts -/

theorem cb_notif_values (n : Notification) : (cb_notif n).values = [n.GetValueID] := by
  unfold cb_notif
  cases h : n.GetType <;> simp [h]

theorem cb_notif_type (n : Notification) : (cb_notif n).type = n.GetType := by
  unfold cb_notif
  cases h : n.GetType <;> simp [h]

theorem cb_notif_nodeid (n : Notification) : (cb_notif n).nodeid = n.GetNodeId := by
  unfold cb_notif
  cases h : n.GetType <;> simp [h]

theorem cb_notif_homeid (n : Notification) : (cb_notif n).homeid = n.GetHomeId := by
  unfold cb_notif
  cases h : n.GetType <;> simp [h]

/-- The switch returns for every record that carries a value, and adds nothing
to the list of handled records by itself. -/
theorem async_cb_switch_total (m : Manager) (notif : NotifInfo) (reg : Registry)
    (hv : notif.values ≠ []) :
    ∃ reg1 o, async_cb_switch m notif reg = some (reg1, o) ∧ o.handled = [] := by
  obtain ⟨type, homeid, nodeid, groupidx, event, buttonid, sceneid, notification, values⟩ := notif
  cases values with
  | nil => exact absurd rfl hv
  | cons v vs =>
    cases type <;> exact ⟨_, _, rfl, rfl⟩

/-- The drain loop on a queue of records that each carry a value: it returns,
leaves the queue empty and has run the dispatch on the queued records in queue
order. -/
theorem async_cb_while_handled (m : Manager) :
    ∀ (q : List NotifInfo) (reg : Registry) (out : Output),
      (∀ r ∈ q, r.values ≠ []) →
      ∃ reg1 out1, async_cb_while m q reg out = some ([], reg1, out1) ∧
        out1.handled = out.handled ++ q := by
  intro q
  induction q with
  | nil => intro reg out _; exact ⟨reg, out, rfl, by simp⟩
  | cons notif rest ih =>
    intro reg out hq
    obtain ⟨reg1, o, hsw, ho⟩ :=
      async_cb_switch_total m notif reg (hq notif (List.mem_cons_self _ _))
    obtain ⟨reg2, out2, hw, hh⟩ :=
      ih reg1 (Output.append out (Output.append { Output.nil with handled := [notif] } o))
        (fun r hr => hq r (List.mem_cons_of_mem _ hr))
    refine ⟨reg2, out2, ?_, ?_⟩
    · simp only [async_cb_while, hsw]
      exact hw
    · rw [hh]
      simp [Output.append, Output.nil, ho]

/-- Every step sequence runs to completion from a queue of records that each
carry a value, and the records handled so far followed by the records still
queued are the records there at the start followed by the records enqueued. -/
theorem run_steps_handled :
    ∀ (steps : List Step) (g : Globals) (out : Output),
      (∀ r ∈ g.zqueue, r.values ≠ []) →
      ∃ g1 out1, run_steps steps g out = some (g1, out1) ∧
        (∀ r ∈ g1.zqueue, r.values ≠ []) ∧
        out1.handled ++ g1.zqueue = out.handled ++ g.zqueue ++ enqueued steps := by
  intro steps
  induction steps with
  | nil => intro g out hg; exact ⟨g, out, rfl, hg, by simp [enqueued]⟩
  | cons s rest ih =>
    intro g out hg
    cases s with
    | enqueue n =>
      have hg1 : ∀ r ∈ (cb n g).zqueue, r.values ≠ [] := by
        intro r hr
        simp only [cb, List.mem_append, List.mem_singleton] at hr
        rcases hr with hr | hr
        · exact hg r hr
        · rw [hr, cb_notif_values]; simp
      obtain ⟨g1, out1, hrun, hwf, hh⟩ := ih (cb n g) (Output.append out Output.nil) hg1
      refine ⟨g1, out1, ?_, hwf, ?_⟩
      · simp only [run_steps, Step.run]
        exact hrun
      · rw [hh]
        simp [Output.append, Output.nil, cb, enqueued]
    | drain m =>
      obtain ⟨reg1, o, hw, ho⟩ := async_cb_while_handled m g.zqueue g.reg Output.nil hg
      obtain ⟨g1, out1, hrun, hwf, hh⟩ :=
        ih { zqueue := [], reg := reg1 } (Output.append out o) (by simp)
      refine ⟨g1, out1, ?_, hwf, ?_⟩
      · simp only [run_steps, Step.run, async_cb_handler, hw]
        exact hrun
      · rw [hh]
        simp [Output.append, Output.nil, ho, enqueued]

theorem enqueued_append (a b : List Step) : enqueued (a ++ b) = enqueued a ++ enqueued b := by
  induction a with
  | nil => rfl
  | cons s rest ih => cases s <;> simp [enqueued, ih]

theorem run_steps_append (a b : List Step) :
    ∀ (g : Globals) (out : Output),
      run_steps (a ++ b) g out =
        match run_steps a g out with
        | none => none
        | some (g1, out1) => run_steps b g1 out1 := by
  induction a with
  | nil => intro g out; rfl
  | cons s rest ih =>
    intro g out
    simp only [List.cons_append, run_steps]
    cases s.run g with
    | none => rfl
    | some p => exact ih p.1 _

/-- The records the specification has delivered once a drain closes the
sequence: the records waiting at the start, then the records enqueued. -/
theorem spec_deliveries_records :
    ∀ (steps : List Step) (pending : List NotifInfo) (m : Manager),
      (spec_deliveries pending (steps ++ [Step.drain m])).map Prod.snd =
        pending ++ enqueued steps := by
  intro steps
  induction steps with
  | nil =>
    intro pending m
    simp [spec_deliveries, enqueued, Function.comp_def]
  | cons s rest ih =>
    intro pending m
    cases s with
    | enqueue n =>
      simp only [List.cons_append, spec_deliveries, enqueued, List.append_eq]
      rw [ih]
      simp
    | drain m1 =>
      simp only [List.cons_append, spec_deliveries, enqueued, List.map_append, List.map_map,
        List.append_eq]
      rw [ih]
      simp [Function.comp_def]

theorem spec_normalize_in_order_append (a b : List (Manager × NotifInfo)) :
    ∀ (reg : Registry) (events : List Event) (stderr : List Diag),
      spec_normalize_in_order (a ++ b) reg events stderr =
        match spec_normalize_in_order a reg events stderr with
        | none => none
        | some (reg1, events1, stderr1) => spec_normalize_in_order b reg1 events1 stderr1 := by
  induction a with
  | nil => intro reg events stderr; rfl
  | cons d rest ih =>
    intro reg events stderr
    simp only [List.cons_append, spec_normalize_in_order]
    cases async_cb_switch d.1 d.2 reg with
    | none => rfl
    | some p => exact ih p.1 _ _

/-- The drain loop is the normalizer run on the queued records in queue order. -/
theorem async_cb_while_normalizes (m : Manager) :
    ∀ (q : List NotifInfo) (reg : Registry) (out : Output) (q1 : List NotifInfo)
      (reg1 : Registry) (out1 : Output),
      async_cb_while m q reg out = some (q1, reg1, out1) →
      q1 = [] ∧
      ∀ (events : List Event) (stderr : List Diag),
        spec_normalize_in_order (q.map (fun r => (m, r))) reg
            (events ++ out.events) (stderr ++ out.stderr) =
          some (reg1, events ++ out1.events, stderr ++ out1.stderr) := by
  intro q
  induction q with
  | nil =>
    intro reg out q1 reg1 out1 h
    simp only [async_cb_while, Option.some.injEq, Prod.mk.injEq] at h
    obtain ⟨rfl, rfl, rfl⟩ := h
    exact ⟨rfl, fun _ _ => rfl⟩
  | cons notif rest ih =>
    intro reg out q1 reg1 out1 h
    simp only [async_cb_while] at h
    cases hsw : async_cb_switch m notif reg with
    | none => rw [hsw] at h; exact absurd h (by simp)
    | some p =>
      rw [hsw] at h
      obtain ⟨hq, hi⟩ := ih p.1 _ q1 reg1 out1 h
      refine ⟨hq, ?_⟩
      intro events stderr
      have hi1 := hi events stderr
      simp only [Output.append, Output.nil, List.nil_append] at hi1
      simp only [List.map_cons, spec_normalize_in_order, hsw, List.append_assoc]
      exact hi1

/-- A run of steps is the normalizer run on the deliveries of the
specification: same registry, same events, same diagnostics. -/
theorem run_steps_normalizes :
    ∀ (steps : List Step) (g : Globals) (out : Output) (g1 : Globals) (out1 : Output),
      run_steps steps g out = some (g1, out1) →
      spec_normalize_in_order (spec_deliveries g.zqueue steps) g.reg out.events out.stderr =
        some (g1.reg, out1.events, out1.stderr) := by
  intro steps
  induction steps with
  | nil =>
    intro g out g1 out1 h
    simp only [run_steps, Option.some.injEq, Prod.mk.injEq] at h
    obtain ⟨rfl, rfl⟩ := h
    rfl
  | cons s rest ih =>
    intro g out g1 out1 h
    cases s with
    | enqueue n =>
      simp only [run_steps, Step.run] at h
      have hi := ih _ _ g1 out1 h
      simp only [cb, Output.append, Output.nil, List.append_nil] at hi
      simp only [spec_deliveries]
      exact hi
    | drain m =>
      simp only [run_steps, Step.run, async_cb_handler] at h
      cases hw : async_cb_while m g.zqueue g.reg Output.nil with
      | none => rw [hw] at h; exact absurd h (by simp)
      | some p =>
        obtain ⟨zq, reg1, o⟩ := p
        rw [hw] at h
        simp only at h
        obtain ⟨hq, hn⟩ := async_cb_while_normalizes m _ _ _ _ _ _ hw
        subst hq
        have hn := hn out.events out.stderr
        simp only [Output.nil, List.append_nil] at hn
        have hi := ih _ _ g1 out1 h
        simp only [Output.append] at hi
        simp only [spec_deliveries]
        rw [spec_normalize_in_order_append, hn]
        exact hi

theorem Object_Get_Set_same (o : V8Object) (k : String) (v : V8Prim) :
    Object_Get (Object_Set o k v) k = some v := by
  induction o with
  | nil => simp [Object_Set, Object_Get]
  | cons p rest ih =>
    obtain ⟨k1, v1⟩ := p
    by_cases h : k1 = k
    · simp [Object_Set, Object_Get, h]
    · simp [Object_Set, Object_Get, h, ih]

theorem Object_Get_Set_other (o : V8Object) (k k2 : String) (v : V8Prim) (h : k ≠ k2) :
    Object_Get (Object_Set o k v) k2 = Object_Get o k2 := by
  induction o with
  | nil => simp [Object_Set, Object_Get, h]
  | cons p rest ih =>
    obtain ⟨k1, v1⟩ := p
    by_cases h1 : k1 = k
    · subst h1
      simp [Object_Set, Object_Get, h]
    · by_cases h2 : k1 = k2
      · subst h2
        simp [Object_Set, Object_Get, h1]
      · simp [Object_Set, Object_Get, h1, h2, ih]

theorem get_node_info_eq_none (znodes : List NodeInfo) (nodeid : Nat)
    (h : ∀ node ∈ znodes, node.nodeid ≠ nodeid) : get_node_info znodes nodeid = none := by
  induction znodes with
  | nil => rfl
  | cons node rest ih =>
    have h1 : node.nodeid ≠ nodeid := h node (List.mem_cons_self _ _)
    simp only [get_node_info, h1, if_false]
    exact ih (fun x hx => h x (List.mem_cons_of_mem _ hx))

theorem get_node_info_append_fresh (znodes : List NodeInfo) (node : NodeInfo)
    (h : ∀ x ∈ znodes, x.nodeid ≠ node.nodeid) :
    get_node_info (znodes ++ [node]) node.nodeid = some node := by
  induction znodes with
  | nil => simp [get_node_info]
  | cons x rest ih =>
    have h1 : x.nodeid ≠ node.nodeid := h x (List.mem_cons_self _ _)
    simp only [List.cons_append, get_node_info, h1, if_false]
    exact ih (fun y hy => h y (List.mem_cons_of_mem _ hy))

theorem write_node_info_append_fresh (znodes : List NodeInfo) (node : NodeInfo)
    (f : NodeInfo → NodeInfo) (h : ∀ x ∈ znodes, x.nodeid ≠ node.nodeid) :
    write_node_info (znodes ++ [node]) node.nodeid f = znodes ++ [f node] := by
  induction znodes with
  | nil => simp [write_node_info]
  | cons x rest ih =>
    have h1 : x.nodeid ≠ node.nodeid := h x (List.mem_cons_self _ _)
    simp only [List.cons_append, write_node_info, h1, if_false]
    exact congrArg (fun l => x :: l) (ih (fun y hy => h y (List.mem_cons_of_mem _ hy)))

theorem write_node_info_of_none (znodes : List NodeInfo) (nodeid : Nat)
    (f : NodeInfo → NodeInfo) (h : get_node_info znodes nodeid = none) :
    write_node_info znodes nodeid f = znodes := by
  induction znodes with
  | nil => rfl
  | cons node rest ih =>
    by_cases h1 : node.nodeid = nodeid
    · simp [get_node_info, h1] at h
    · simp only [get_node_info, h1, if_false] at h
      simp only [write_node_info, h1, if_false, ih h]

/-- The effect of the dispatch on the registry: the scene table is untouched,
the home id is overwritten by driver-ready only, the node table changes as
`znodes_after` says. -/
theorem async_cb_switch_reg (m : Manager) (notif : NotifInfo) (reg reg1 : Registry)
    (o : Output) (h : async_cb_switch m notif reg = some (reg1, o)) :
    reg1.zscenes = reg.zscenes ∧
    reg1.homeid =
      (if notif.type = NotificationType.Type_DriverReady then notif.homeid else reg.homeid) ∧
    reg1.znodes = znodes_after notif reg.znodes := by
  obtain ⟨type, homeid, nodeid, groupidx, event, buttonid, sceneid, notification, values⟩ := notif
  obtain ⟨znodes, zscenes, hid⟩ := reg
  cases values with
  | nil =>
    cases type <;> simp [async_cb_switch, emit, Output.nil] at h <;>
      (obtain ⟨rfl, _⟩ := h; simp [znodes_after])
  | cons v vs =>
    cases type <;> simp only [async_cb_switch, List.head?, Option.some.injEq, Prod.mk.injEq] at h <;>
      obtain ⟨rfl, _⟩ := h
    all_goals first
      | (refine ⟨rfl, by simp, ?_⟩; simp [znodes_after]; done)
      | (refine ⟨rfl, by simp, ?_⟩
         simp only [znodes_after, List.head?]
         cases hg : get_node_info znodes nodeid with
         | none => simp [write_node_info_of_none _ _ _ hg]
         | some node => simp)

/-- The registry after a drain: the queue is empty, the scene table is as
before, and the node table and the home id are the fold of the single-record
effects over the queue. -/
theorem async_cb_while_reg (m : Manager) :
    ∀ (rs : List NotifInfo) (reg : Registry) (out : Output) (q : List NotifInfo)
      (reg2 : Registry) (out2 : Output),
      async_cb_while m rs reg out = some (q, reg2, out2) →
      q = [] ∧ reg2.zscenes = reg.zscenes ∧
      reg2.znodes = rs.foldl (fun zn r => znodes_after r zn) reg.znodes ∧
      reg2.homeid =
        rs.foldl (fun h r => if r.type = NotificationType.Type_DriverReady then r.homeid else h)
          reg.homeid := by
  intro rs
  induction rs with
  | nil =>
    intro reg out q reg2 out2 h
    simp only [async_cb_while, Option.some.injEq, Prod.mk.injEq] at h
    obtain ⟨rfl, rfl, _⟩ := h
    exact ⟨rfl, rfl, rfl, rfl⟩
  | cons notif rest ih =>
    intro reg out q reg2 out2 h
    simp only [async_cb_while] at h
    cases hsw : async_cb_switch m notif reg with
    | none => simp [hsw] at h
    | some p =>
      obtain ⟨reg1, o⟩ := p
      simp only [hsw] at h
      obtain ⟨hq, hs, hz, hh⟩ := ih _ _ _ _ _ h
      obtain ⟨hs1, hh1, hz1⟩ := async_cb_switch_reg m notif reg reg1 o hsw
      refine ⟨hq, by rw [hs, hs1], ?_, ?_⟩
      · rw [hz, hz1]; rfl
      · rw [hh, hh1]; rfl

theorem write_node_info_nodeids (znodes : List NodeInfo) (nodeid : Nat)
    (f : NodeInfo → NodeInfo) (hf : ∀ node, (f node).nodeid = node.nodeid) :
    (write_node_info znodes nodeid f).map NodeInfo.nodeid = znodes.map NodeInfo.nodeid := by
  induction znodes with
  | nil => rfl
  | cons node rest ih =>
    by_cases h1 : node.nodeid = nodeid
    · simp [write_node_info, h1, hf]
    · simp [write_node_info, h1, ih]

theorem znodes_after_nodeids (r : NotifInfo) (znodes : List NodeInfo) :
    (znodes_after r znodes).map NodeInfo.nodeid =
      znodes.map NodeInfo.nodeid ++
        (if r.type = NotificationType.Type_NodeAdded then [r.nodeid] else []) := by
  obtain ⟨type, homeid, nodeid, groupidx, event, buttonid, sceneid, notification, values⟩ := r
  cases values with
  | nil => cases type <;> simp [znodes_after]
  | cons v vs =>
    cases type <;> simp [znodes_after, write_node_info_nodeids]

theorem foldl_znodes_after_nodeids (rs : List NotifInfo) :
    ∀ znodes : List NodeInfo,
      (rs.foldl (fun zn r => znodes_after r zn) znodes).map NodeInfo.nodeid =
        znodes.map NodeInfo.nodeid ++
          (rs.filter (fun r => decide (r.type = NotificationType.Type_NodeAdded))).map
            NotifInfo.nodeid := by
  induction rs with
  | nil => intro znodes; simp
  | cons r rest ih =>
    intro znodes
    simp only [List.foldl_cons]
    rw [ih, znodes_after_nodeids]
    by_cases h : r.type = NotificationType.Type_NodeAdded
    · simp [List.filter_cons, h]
    · simp [List.filter_cons, h]

theorem foldl_homeid_no_driver_ready (rs : List NotifInfo)
    (h : ∀ r ∈ rs, r.type ≠ NotificationType.Type_DriverReady) :
    ∀ hid : Nat,
      rs.foldl (fun h r => if r.type = NotificationType.Type_DriverReady then r.homeid else h)
        hid = hid := by
  induction rs with
  | nil => intro hid; rfl
  | cons r rest ih =>
    intro hid
    have h1 : r.type ≠ NotificationType.Type_DriverReady := h r (List.mem_cons_self _ _)
    simp only [List.foldl_cons, h1, if_false]
    exact ih (fun x hx => h x (List.mem_cons_of_mem _ hx)) hid

theorem values_erase_eq_erase (values : List ValueID) (value : ValueID) :
    values_erase values value = values.erase value := by
  induction values with
  | nil => rfl
  | cons v rest ih =>
    by_cases h : v = value
    · simp [values_erase, h]
    · simp [values_erase, h, List.erase_cons_tail, ih]

/-- Erasing the first occurrence twice is the same as erasing it once exactly
when the value occurs at most once. -/
theorem values_erase_twice (values : List ValueID) (value : ValueID) :
    values_erase (values_erase values value) value = values_erase values value ↔
      values.count value ≤ 1 := by
  rw [values_erase_eq_erase, values_erase_eq_erase, List.erase_eq_self_iff,
    ← List.count_eq_zero, List.count_erase_self]
  omega

theorem write_node_info_twice (znodes : List NodeInfo) (nodeid : Nat)
    (f : NodeInfo → NodeInfo) (hf : ∀ node, (f node).nodeid = node.nodeid) :
    write_node_info (write_node_info znodes nodeid f) nodeid f = write_node_info znodes nodeid f ↔
      ∀ node, get_node_info znodes nodeid = some node → f (f node) = f node := by
  induction znodes with
  | nil => simp [write_node_info, get_node_info]
  | cons x rest ih =>
    by_cases h1 : x.nodeid = nodeid
    · have h2 : (f x).nodeid = nodeid := by rw [hf, h1]
      simp [write_node_info, get_node_info, h1, h2]
    · simp [write_node_info, get_node_info, h1, ih]

theorem mem_write_node_info (znodes : List NodeInfo) (nodeid : Nat) (f : NodeInfo → NodeInfo)
    (b : NodeInfo) (hb : b ∈ write_node_info znodes nodeid f) :
    b ∈ znodes ∨ ∃ a ∈ znodes, a.nodeid = nodeid ∧ b = f a := by
  induction znodes with
  | nil => simp [write_node_info] at hb
  | cons x rest ih =>
    by_cases h1 : x.nodeid = nodeid
    · simp only [write_node_info, h1, if_true, List.mem_cons] at hb
      rcases hb with hb | hb
      · exact Or.inr ⟨x, List.mem_cons_self _ _, h1, hb⟩
      · exact Or.inl (List.mem_cons_of_mem _ hb)
    · simp only [write_node_info, h1, if_false, List.mem_cons] at hb
      rcases hb with hb | hb
      · exact Or.inl (hb ▸ List.mem_cons_self _ _)
      · rcases ih hb with h | ⟨a, ha, hn, he⟩
        · exact Or.inl (List.mem_cons_of_mem _ h)
        · exact Or.inr ⟨a, List.mem_cons_of_mem _ ha, hn, he⟩

/-- A write to the record of node `nodeid` keeps the invariant when it keeps
the node id and puts only values of that node into the list. -/
theorem owns_values_write (znodes : List NodeInfo) (nodeid : Nat) (f : NodeInfo → NodeInfo)
    (hid : ∀ node, (f node).nodeid = node.nodeid)
    (hvals : ∀ node, node.nodeid = nodeid → (∀ v ∈ node.values, v.GetNodeId = nodeid) →
      ∀ v ∈ (f node).values, v.GetNodeId = nodeid)
    (h : owns_values znodes) : owns_values (write_node_info znodes nodeid f) := by
  obtain ⟨hown, hpw⟩ := h
  constructor
  · intro b hb v hv
    rcases mem_write_node_info znodes nodeid f b hb with hmem | ⟨a, ha, hn, he⟩
    · exact hown b hmem v hv
    · subst he
      rw [hid, hn]
      exact hvals a hn (fun w hw => hn ▸ hown a ha w hw) v hv
  · induction znodes with
    | nil => simp [write_node_info]
    | cons x rest ih =>
      rw [List.pairwise_cons] at hpw
      obtain ⟨hx, hrest⟩ := hpw
      by_cases h1 : x.nodeid = nodeid
      · simp only [write_node_info, h1, if_true]
        rw [List.pairwise_cons]
        exact ⟨fun b hb hxb => hx b hb (by rw [← hid x]; exact hxb), hrest⟩
      · simp only [write_node_info, h1, if_false]
        rw [List.pairwise_cons]
        refine ⟨?_, ih (fun b hb => hown b (List.mem_cons_of_mem _ hb)) hrest⟩
        intro b hb hxb
        rcases mem_write_node_info rest nodeid f b hb with hmem | ⟨a, _, hn, he⟩
        · exact hx b hmem hxb
        · subst he
          rw [hid, hn] at hxb
          exact absurd hxb h1

theorem mem_values_erase (values : List ValueID) (value v : ValueID)
    (h : v ∈ values_erase values value) : v ∈ values := by
  rw [values_erase_eq_erase] at h
  exact List.mem_of_mem_erase h

/-- One record keeps the invariant, when a value-added record carries a value
of the node the record names. -/
theorem owns_values_after (r : NotifInfo) (znodes : List NodeInfo)
    (hr : r.type = NotificationType.Type_ValueAdded →
      ∀ v, r.values.head? = some v → v.GetNodeId = r.nodeid)
    (h : owns_values znodes) : owns_values (znodes_after r znodes) := by
  obtain ⟨type, homeid, nodeid, groupidx, event, buttonid, sceneid, notification, values⟩ := r
  simp only at hr
  cases hv : values.head? with
  | none => cases type <;> simp only [znodes_after, hv] <;> first
      | exact h
      | (obtain ⟨hown, hpw⟩ := h
         refine ⟨?_, ?_⟩
         · intro node hnode v hvn
           rcases List.mem_append.mp hnode with hm | hm
           · exact hown node hm v hvn
           · simp only [List.mem_singleton] at hm
             subst hm
             simp at hvn
         · rw [List.pairwise_append]
           refine ⟨hpw, List.pairwise_singleton _ _, ?_⟩
           intro a _ b hb _
           simp only [List.mem_singleton] at hb
           subst hb
           rfl)
  | some value =>
    cases type <;> simp only [znodes_after, hv] <;> first
      | exact h
      | (obtain ⟨hown, hpw⟩ := h
         refine ⟨?_, ?_⟩
         · intro node hnode v hvn
           rcases List.mem_append.mp hnode with hm | hm
           · exact hown node hm v hvn
           · simp only [List.mem_singleton] at hm
             subst hm
             simp at hvn
         · rw [List.pairwise_append]
           refine ⟨hpw, List.pairwise_singleton _ _, ?_⟩
           intro a _ b hb _
           simp only [List.mem_singleton] at hb
           subst hb
           rfl)
      | (refine owns_values_write znodes nodeid _ (fun _ => rfl) ?_ h
         intro node _ hnode v hvn
         simp only [List.mem_append, List.mem_singleton] at hvn
         rcases hvn with hvn | hvn
         · exact hnode v hvn
         · rw [hvn]; exact hr rfl value (by rw [hv]))
      | (refine owns_values_write znodes nodeid _ (fun _ => rfl) ?_ h
         intro node _ hnode v hvn
         exact hnode v (mem_values_erase _ _ _ hvn))

theorem owns_values_foldl (rs : List NotifInfo)
    (hrs : ∀ r ∈ rs, r.type = NotificationType.Type_ValueAdded →
      ∀ v, r.values.head? = some v → v.GetNodeId = r.nodeid) :
    ∀ znodes : List NodeInfo, owns_values znodes →
      owns_values (rs.foldl (fun zn r => znodes_after r zn) znodes) := by
  induction rs with
  | nil => intro znodes h; exact h
  | cons r rest ih =>
    intro znodes h
    simp only [List.foldl_cons]
    exact ih (fun x hx => hrs x (List.mem_cons_of_mem _ hx)) _
      (owns_values_after r znodes (hrs r (List.mem_cons_self _ _)) h)

/-- The rebuild loop, started at index `i` with as many rounds as the array has
elements left, returns and appends one fresh record per remaining element. -/
theorem GetScenes_loop_eq (m : Manager) (sceneids : List Nat) :
    ∀ (count i : Nat) (zscenes : List SceneInfo), i + count = sceneids.length →
      GetScenes_loop m sceneids count i zscenes =
        some (zscenes ++ (sceneids.drop i).map
          (fun sceneid => { sceneid := sceneid, label := m.GetSceneLabel sceneid, values := [] })) := by
  intro count
  induction count with
  | zero =>
    intro i zscenes h
    have hi : sceneids.length ≤ i := by omega
    simp [GetScenes_loop, List.drop_of_length_le hi]
  | succ count ih =>
    intro i zscenes h
    have hi : i < sceneids.length := by omega
    simp only [GetScenes_loop, List.getElem?_eq_getElem hi]
    rw [ih (i + 1) _ (by omega), List.drop_eq_getElem_cons hi]
    simp only [List.map_cons, List.append_assoc, List.singleton_append]

theorem Integer_New_of_lt (n : Nat) (h : n < 2147483648) : Integer_New (Int.ofNat n) = Int.ofNat n := by
  unfold Integer_New
  have h1 : (Int.ofNat n : Int) = (n : Int) := rfl
  rw [h1]
  omega

/-! ## The claims -/

/-- C1: for every sequence of atomic steps (enqueue by `cb`, or one run of
`async_cb_handler`) from the empty queue, the run completes, and after a drain
the queue is empty and the records the drains have processed so far are exactly
the records enqueued so far, in enqueue order, each once: the records the
dispatch ran on are the enqueued ones, and the registry, the events and the
diagnostics of the run are those of the normalizer run once on each enqueued
record in enqueue order, each with the controller state of the drain that
follows its enqueue. -/
theorem queue_fifo_exactly_once (steps : List Step) (m : Manager) :
    ∃ g out, run_steps (steps ++ [Step.drain m]) Globals.init Output.nil = some (g, out) ∧
      g.zqueue = [] ∧ out.handled = enqueued steps ∧
      (spec_deliveries [] (steps ++ [Step.drain m])).map Prod.snd = enqueued steps ∧
      spec_normalize_in_order (spec_deliveries [] (steps ++ [Step.drain m]))
          Globals.init.reg [] [] =
        some (g.reg, out.events, out.stderr) := by
  obtain ⟨g0, out0, hrun0, hwf0, hh0⟩ :=
    run_steps_handled steps Globals.init Output.nil (by simp [Globals.init])
  obtain ⟨reg1, o, hw, ho⟩ := async_cb_while_handled m g0.zqueue g0.reg Output.nil hwf0
  have hrun : run_steps (steps ++ [Step.drain m]) Globals.init Output.nil =
      some ({ zqueue := [], reg := reg1 }, Output.append out0 o) := by
    rw [run_steps_append, hrun0]
    simp only [run_steps, Step.run, async_cb_handler, hw]
  refine ⟨{ zqueue := [], reg := reg1 }, Output.append out0 o, hrun, rfl, ?_, ?_, ?_⟩
  · simp only [Output.append, ho, Output.nil, List.nil_append]
    rw [hh0]
    simp [Output.nil, Globals.init]
  · rw [spec_deliveries_records]
    rfl
  · exact run_steps_normalizes _ _ _ _ _ hrun

/-- C2: from the empty globals, with a controller in which the value `A` has type
byte and reads 7, enqueueing driver-ready (home id 100), node-added (node 5) and
value-added (node 5, value `A`) and draining once emits exactly the three
events `driver ready` 100, `node added` 5, `value added` 5 / class id of `A` /
rendered `A`, whose `value` property is 7; the node table then holds the single
record of node 5 with the value list `[A]`. -/
theorem scenario_three_events (m : Manager) (A : ValueID) (n1 n2 n3 : Notification)
    (hA : A.GetType = ValueType.ValueType_Byte) (h7 : m.GetValueAsByte A = 7)
    (h1t : n1.GetType = NotificationType.Type_DriverReady) (h1h : n1.GetHomeId = 100)
    (h2t : n2.GetType = NotificationType.Type_NodeAdded) (h2n : n2.GetNodeId = 5)
    (h3t : n3.GetType = NotificationType.Type_ValueAdded) (h3n : n3.GetNodeId = 5)
    (h3v : n3.GetValueID = A) :
    ∃ g out payload,
      async_cb_handler m (cb n3 (cb n2 (cb n1 Globals.init))) = some (g, out) ∧
      out.events =
        [{ name := "driver ready", args := [V8Value.int 100] },
         { name := "node added", args := [V8Value.int 5] },
         { name := "value added",
           args := [V8Value.int 5, V8Value.int (Int.ofNat A.GetCommandClassId),
                    V8Value.obj payload] }] ∧
      payload = (zwaveValue2v8Value m A).1 ∧
      Object_Get payload "value" = some (V8Prim.int 7) ∧
      g.zqueue = [] ∧
      g.reg.znodes =
        [{ homeid := n2.GetHomeId, nodeid := 5, polled := false, values := [A] }] := by
  have r1 : cb_notif n1 =
      { type := NotificationType.Type_DriverReady, homeid := 100, nodeid := n1.GetNodeId,
        groupidx := 0, event := 0, buttonid := 0, sceneid := 0, notification := 0,
        values := [n1.GetValueID] } := by
    simp [cb_notif, h1t, h1h]
  have r2 : cb_notif n2 =
      { type := NotificationType.Type_NodeAdded, homeid := n2.GetHomeId, nodeid := 5,
        groupidx := 0, event := 0, buttonid := 0, sceneid := 0, notification := 0,
        values := [n2.GetValueID] } := by
    simp [cb_notif, h2t, h2n]
  have r3 : cb_notif n3 =
      { type := NotificationType.Type_ValueAdded, homeid := n3.GetHomeId, nodeid := 5,
        groupidx := 0, event := 0, buttonid := 0, sceneid := 0, notification := 0,
        values := [A] } := by
    simp [cb_notif, h3t, h3n, h3v]
  have hval : Object_Get (zwaveValue2v8Value m A).1 "value" = some (V8Prim.int 7) := by
    simp only [zwaveValue2v8Value, hA, h7]
    exact Object_Get_Set_same _ _ _
  simp only [async_cb_handler, cb, Globals.init, r1, r2, r3, List.nil_append,
    List.cons_append, async_cb_while, async_cb_switch, List.head?, get_node_info,
    write_node_info, if_true, Output.append, Output.nil, emit]
  refine ⟨_, _, _, rfl, ?_, rfl, hval, rfl, rfl⟩
  simp [Integer_New]

/-- Witness of C2 with `value_A`, `byte7_manager` and three notifications for
home network 100 and node 5. -/
theorem scenario_three_events_witness :
    ∃ g out payload,
      async_cb_handler byte7_manager
          (cb (notification_of NotificationType.Type_ValueAdded)
            (cb (notification_of NotificationType.Type_NodeAdded)
              (cb (notification_of NotificationType.Type_DriverReady) Globals.init)))
        = some (g, out) ∧
      out.events =
        [{ name := "driver ready", args := [V8Value.int 100] },
         { name := "node added", args := [V8Value.int 5] },
         { name := "value added",
           args := [V8Value.int 5, V8Value.int (Int.ofNat value_A.GetCommandClassId),
                    V8Value.obj payload] }] ∧
      payload = (zwaveValue2v8Value byte7_manager value_A).1 ∧
      Object_Get payload "value" = some (V8Prim.int 7) ∧
      g.zqueue = [] ∧
      g.reg.znodes =
        [{ homeid := (notification_of NotificationType.Type_NodeAdded).GetHomeId,
           nodeid := 5, polled := false, values := [value_A] }] :=
  scenario_three_events byte7_manager value_A
    (notification_of NotificationType.Type_DriverReady)
    (notification_of NotificationType.Type_NodeAdded)
    (notification_of NotificationType.Type_ValueAdded)
    rfl rfl rfl rfl rfl rfl rfl rfl rfl

/-- C3: for every record that carries a value (as every record `cb` enqueues
does) and every registry, the dispatch returns, and the names of the events it
emits are fixed by the type of the record as in the table; `node event`,
`scene event` and `notification` carry the node id and the event code, scene id
and diagnostic code of the record. -/
theorem event_names_by_kind (m : Manager) (notif : NotifInfo) (reg : Registry)
    (hv : notif.values ≠ []) :
    ∃ reg1 out, async_cb_switch m notif reg = some (reg1, out) ∧
      out.events.map Event.name =
        (match notif.type with
         | .Type_DriverReady => ["driver ready"]
         | .Type_DriverFailed => ["driver failed"]
         | .Type_NodeAdded => ["node added"]
         | .Type_NodeNaming => ["node naming"]
         | .Type_ValueAdded => ["value added"]
         | .Type_ValueChanged => ["value changed"]
         | .Type_ValueRefreshed => ["value refreshed"]
         | .Type_ValueRemoved => ["value removed"]
         | .Type_EssentialNodeQueriesComplete => ["node available"]
         | .Type_NodeQueriesComplete => ["node ready"]
         | .Type_AwakeNodesQueried => ["scan complete"]
         | .Type_AllNodesQueried => ["scan complete"]
         | .Type_AllNodesQueriedSomeDead => ["scan complete"]
         | .Type_NodeEvent => ["node event"]
         | .Type_SceneEvent => ["scene event"]
         | .Type_Notification => ["notification"]
         | .Type_NodeNew => []
         | .Type_NodeProtocolInfo => []
         | .Type_PollingEnabled => []
         | .Type_PollingDisabled => []
         | .Type_Group => []
         | _ => []) ∧
      (notif.type = NotificationType.Type_NodeEvent →
        out.events = [{ name := "node event",
                        args := [V8Value.int (Int.ofNat notif.nodeid),
                                 V8Value.int (Int.ofNat notif.event)] }]) ∧
      (notif.type = NotificationType.Type_SceneEvent →
        out.events = [{ name := "scene event",
                        args := [V8Value.int (Int.ofNat notif.nodeid),
                                 V8Value.int (Int.ofNat notif.sceneid)] }]) ∧
      (notif.type = NotificationType.Type_Notification →
        out.events = [{ name := "notification",
                        args := [V8Value.int (Int.ofNat notif.nodeid),
                                 V8Value.int (Int.ofNat notif.notification)] }]) := by
  obtain ⟨type, homeid, nodeid, groupidx, event, buttonid, sceneid, notification, values⟩ := notif
  cases values with
  | nil => exact absurd rfl hv
  | cons v vs =>
    cases type <;> refine ⟨_, _, rfl, rfl, ?_, ?_, ?_⟩ <;> intro h <;>
      first
        | rfl
        | cases h

/-- Witness of C3 with a value-added record for node 5. -/
theorem event_names_by_kind_witness :
    (record_of NotificationType.Type_ValueAdded 100 5 value_A).values ≠ [] ∧
    ∃ reg1 out,
      async_cb_switch silent_manager (record_of NotificationType.Type_ValueAdded 100 5 value_A)
        Globals.init.reg = some (reg1, out) ∧
      out.events.map Event.name = ["value added"] :=
  ⟨by simp [record_of],
    (event_names_by_kind silent_manager (record_of NotificationType.Type_ValueAdded 100 5 value_A)
      Globals.init.reg (by simp [record_of])).imp
      (fun _ h => h.imp (fun _ h2 => ⟨h2.1, h2.2.1⟩))⟩

/-- C4: from a node table with no record for node `n`, processing node-added
for `n` and then value-added for `n` with value `v` leaves the old records as
they were, followed by one new record for `n` with polling off and the value
list `[v]`; it is the only record for `n`. -/
theorem node_added_then_value_added (m : Manager) (reg : Registry) (r1 r2 : NotifInfo)
    (n : Nat) (v : ValueID)
    (h1 : r1.type = NotificationType.Type_NodeAdded) (hn1 : r1.nodeid = n)
    (h2 : r2.type = NotificationType.Type_ValueAdded) (hn2 : r2.nodeid = n)
    (hv : r2.values.head? = some v)
    (hfresh : ∀ node ∈ reg.znodes, node.nodeid ≠ n) :
    ∃ reg2 out, async_cb_while m [r1, r2] reg Output.nil = some ([], reg2, out) ∧
      reg2.znodes =
        reg.znodes ++ [{ homeid := r1.homeid, nodeid := n, polled := false, values := [v] }] ∧
      List.countP (fun node => decide (node.nodeid = n)) reg2.znodes = 1 := by
  obtain ⟨t1, hid1, nid1, g1, e1, b1, s1, no1, vs1⟩ := r1
  obtain ⟨t2, hid2, nid2, g2, e2, b2, s2, no2, vs2⟩ := r2
  simp only at h1 hn1 h2 hn2 hv
  subst h1 hn1 h2 hn2
  have hfresh2 : ∀ x ∈ reg.znodes,
      x.nodeid ≠ ({ homeid := hid1, nodeid := nid2, polled := false, values := [] } : NodeInfo).nodeid :=
    hfresh
  have hg := get_node_info_append_fresh reg.znodes
    { homeid := hid1, nodeid := nid2, polled := false, values := [] } hfresh2
  have hw := write_node_info_append_fresh reg.znodes
    { homeid := hid1, nodeid := nid2, polled := false, values := [] }
    (fun node => { node with values := node.values ++ [v] }) hfresh2
  simp only at hg hw
  simp only [async_cb_while, async_cb_switch, hv, hg, hw]
  refine ⟨_, _, rfl, ?_, ?_⟩
  · simp
  · have hc : List.countP (fun node : NodeInfo => decide (node.nodeid = nid2)) reg.znodes = 0 := by
      rw [List.countP_eq_zero]
      intro x hx
      simpa using hfresh x hx
    simp [List.countP_append, hc]

/-- Witness of C4 with an empty node table, node 5 and `value_A`. -/
theorem node_added_then_value_added_witness :
    ∃ reg2 out,
      async_cb_while silent_manager
        [record_of NotificationType.Type_NodeAdded 100 5 value_A,
         record_of NotificationType.Type_ValueAdded 100 5 value_A]
        Globals.init.reg Output.nil = some ([], reg2, out) ∧
      reg2.znodes =
        Globals.init.reg.znodes ++
          [{ homeid := (record_of NotificationType.Type_NodeAdded 100 5 value_A).homeid,
             nodeid := 5, polled := false, values := [value_A] }] ∧
      List.countP (fun node => decide (node.nodeid = 5)) reg2.znodes = 1 :=
  node_added_then_value_added silent_manager Globals.init.reg
    (record_of NotificationType.Type_NodeAdded 100 5 value_A)
    (record_of NotificationType.Type_ValueAdded 100 5 value_A) 5 value_A
    rfl rfl rfl rfl rfl (by simp [Globals.init])

/-- C5: a value-added record whose node id has no record in the node table
leaves the whole registry (node table, scene table, home id) as it was, and
emits exactly one `value added` event with the node id of the record, the
command class id of the value and the rendered value. -/
theorem value_added_unknown_node (m : Manager) (reg : Registry) (notif : NotifInfo)
    (v : ValueID)
    (ht : notif.type = NotificationType.Type_ValueAdded)
    (hv : notif.values.head? = some v)
    (hmiss : ∀ node ∈ reg.znodes, node.nodeid ≠ notif.nodeid) :
    ∃ out, async_cb_switch m notif reg = some (reg, out) ∧
      out.events =
        [{ name := "value added",
           args := [V8Value.int (Int.ofNat notif.nodeid),
                    V8Value.int (Int.ofNat v.GetCommandClassId),
                    V8Value.obj (zwaveValue2v8Value m v).1] }] := by
  obtain ⟨type, homeid, nodeid, groupidx, event, buttonid, sceneid, notification, values⟩ := notif
  obtain ⟨znodes, zscenes, hid⟩ := reg
  simp only at ht hv hmiss
  subst ht
  have hg := get_node_info_eq_none znodes nodeid hmiss
  simp only [async_cb_switch, hv, hg]
  exact ⟨_, rfl, rfl⟩

/-- Witness of C5 with a node table that knows node 6 only. -/
theorem value_added_unknown_node_witness :
    ∃ out,
      async_cb_switch silent_manager (record_of NotificationType.Type_ValueAdded 100 5 value_A)
        { znodes := [{ homeid := 100, nodeid := 6, polled := false, values := [] }],
          zscenes := [], homeid := 100 }
        = some ({ znodes := [{ homeid := 100, nodeid := 6, polled := false, values := [] }],
                  zscenes := [], homeid := 100 }, out) ∧
      out.events =
        [{ name := "value added",
           args := [V8Value.int (Int.ofNat
                      (record_of NotificationType.Type_ValueAdded 100 5 value_A).nodeid),
                    V8Value.int (Int.ofNat value_A.GetCommandClassId),
                    V8Value.obj (zwaveValue2v8Value silent_manager value_A).1] }] :=
  value_added_unknown_node silent_manager
    { znodes := [{ homeid := 100, nodeid := 6, polled := false, values := [] }],
      zscenes := [], homeid := 100 }
    (record_of NotificationType.Type_ValueAdded 100 5 value_A) value_A rfl rfl
    (by simp [record_of])

/-- C6, as stated, fails: after node-added for node 5 and two value-added
records for node 5 with the same value, the node holds the value twice; the
first removal leaves one occurrence and the second removal erases that one. -/
theorem value_removed_twice_counterexample :
    ¬ ∀ (m : Manager) (rs q : List NotifInfo) (reg : Registry) (out : Output) (r : NotifInfo),
        async_cb_while m rs Globals.init.reg Output.nil = some (q, reg, out) →
        r.type = NotificationType.Type_ValueRemoved → r.values ≠ [] →
        ∃ reg1 o1 reg2 o2,
          async_cb_switch m r reg = some (reg1, o1) ∧
          async_cb_switch m r reg1 = some (reg2, o2) ∧
          reg2.znodes = reg1.znodes := by
  intro h
  obtain ⟨reg1, o1, reg2, o2, h1, h2, h3⟩ := h silent_manager
    [record_of NotificationType.Type_NodeAdded 100 5 value_A,
     record_of NotificationType.Type_ValueAdded 100 5 value_A,
     record_of NotificationType.Type_ValueAdded 100 5 value_A] _ _ _
    (record_of NotificationType.Type_ValueRemoved 100 5 value_A) rfl rfl (by simp [record_of])
  obtain ⟨_, _, hz1⟩ := async_cb_switch_reg _ _ _ _ _ h1
  obtain ⟨_, _, hz2⟩ := async_cb_switch_reg _ _ _ _ _ h2
  rw [hz2, hz1] at h3
  simp [znodes_after, record_of, write_node_info, values_erase, Globals.init] at h3

/-- C6, amended: for every registry and every value-removed record that carries
a value, processing the record once and twice both return, and the node table
after the second removal is the one after the first exactly when the value
occurs at most once in the value list of the node the record names (the first
table record with that node id), or the node has no record. -/
theorem value_removed_twice (m : Manager) (reg : Registry) (r : NotifInfo) (v : ValueID)
    (ht : r.type = NotificationType.Type_ValueRemoved) (hv : r.values.head? = some v) :
    ∃ reg1 o1 reg2 o2,
      async_cb_switch m r reg = some (reg1, o1) ∧
      async_cb_switch m r reg1 = some (reg2, o2) ∧
      (reg2.znodes = reg1.znodes ↔
        ∀ node, get_node_info reg.znodes r.nodeid = some node → node.values.count v ≤ 1) := by
  have hne : r.values ≠ [] := by
    intro h
    rw [h] at hv
    exact absurd hv (by simp)
  obtain ⟨reg1, o1, h1, _⟩ := async_cb_switch_total m r reg hne
  obtain ⟨reg2, o2, h2, _⟩ := async_cb_switch_total m r reg1 hne
  refine ⟨reg1, o1, reg2, o2, h1, h2, ?_⟩
  obtain ⟨_, _, hz1⟩ := async_cb_switch_reg _ _ _ _ _ h1
  obtain ⟨_, _, hz2⟩ := async_cb_switch_reg _ _ _ _ _ h2
  rw [hz2, hz1]
  simp only [znodes_after, ht, hv]
  rw [write_node_info_twice reg.znodes r.nodeid
    (fun node => { node with values := values_erase node.values v }) (fun _ => rfl)]
  constructor
  · intro h node hnode
    have h3 := h node hnode
    simp only [NodeInfo.mk.injEq, true_and] at h3
    exact (values_erase_twice _ _).mp h3
  · intro h node hnode
    simp only [NodeInfo.mk.injEq, true_and]
    exact (values_erase_twice _ _).mpr (h node hnode)

/-- Witness of the amended C6: node 5 holds `value_A` once; the second removal
changes nothing. -/
theorem value_removed_twice_witness :
    ∃ reg1 o1 reg2 o2,
      async_cb_switch silent_manager (record_of NotificationType.Type_ValueRemoved 100 5 value_A)
        { znodes := [{ homeid := 100, nodeid := 5, polled := false, values := [value_A] }],
          zscenes := [], homeid := 100 } = some (reg1, o1) ∧
      async_cb_switch silent_manager (record_of NotificationType.Type_ValueRemoved 100 5 value_A)
        reg1 = some (reg2, o2) ∧
      reg2.znodes = reg1.znodes := by
  obtain ⟨reg1, o1, reg2, o2, h1, h2, h3⟩ :=
    value_removed_twice silent_manager
      { znodes := [{ homeid := 100, nodeid := 5, polled := false, values := [value_A] }],
        zscenes := [], homeid := 100 }
      (record_of NotificationType.Type_ValueRemoved 100 5 value_A) value_A rfl rfl
  refine ⟨reg1, o1, reg2, o2, h1, h2, h3.mpr ?_⟩
  intro node hnode
  simp [get_node_info, record_of] at hnode
  subst hnode
  simp

/-- C7, as stated, fails: after two node-added records for node 5 the node table
holds two records with node id 5. -/
theorem node_ids_distinct_counterexample :
    ¬ ∀ (m : Manager) (rs q : List NotifInfo) (reg : Registry) (out : Output),
        async_cb_while m rs Globals.init.reg Output.nil = some (q, reg, out) →
        (reg.znodes.map NodeInfo.nodeid).Nodup := by
  intro h
  have h2 := h silent_manager
    [record_of NotificationType.Type_NodeAdded 100 5 value_A,
     record_of NotificationType.Type_NodeAdded 100 5 value_A] _ _ _ rfl
  simp [record_of, Globals.init] at h2

/-- C7, amended: in every registry reached from the empty one by processing
notification records, the node table holds one record per node-added record
processed, with its node id, in processing order, whether or not node ids
repeat; so no two records of the node table have the same node id exactly when
no two of the node-added records processed carry the same node id. -/
theorem node_ids_distinct (m : Manager) (rs q : List NotifInfo) (reg : Registry) (out : Output)
    (hrun : async_cb_while m rs Globals.init.reg Output.nil = some (q, reg, out)) :
    reg.znodes.map NodeInfo.nodeid =
      (rs.filter (fun r => decide (r.type = NotificationType.Type_NodeAdded))).map
        NotifInfo.nodeid ∧
    ((reg.znodes.map NodeInfo.nodeid).Nodup ↔
      ((rs.filter (fun r => decide (r.type = NotificationType.Type_NodeAdded))).map
        NotifInfo.nodeid).Nodup) := by
  obtain ⟨_, _, hz, _⟩ := async_cb_while_reg m rs _ _ _ _ _ hrun
  have hids : reg.znodes.map NodeInfo.nodeid =
      (rs.filter (fun r => decide (r.type = NotificationType.Type_NodeAdded))).map
        NotifInfo.nodeid := by
    rw [hz, foldl_znodes_after_nodeids]
    simp [Globals.init]
  exact ⟨hids, by rw [hids]⟩

/-- Witness of the amended C7: node-added for node 5, value-added for node 5,
node-added for node 6. -/
theorem node_ids_distinct_witness :
    ∃ reg out,
      async_cb_while silent_manager
        [record_of NotificationType.Type_NodeAdded 100 5 value_A,
         record_of NotificationType.Type_ValueAdded 100 5 value_A,
         record_of NotificationType.Type_NodeAdded 100 6 value_A]
        Globals.init.reg Output.nil = some ([], reg, out) ∧
      reg.znodes.map NodeInfo.nodeid = [5, 6] ∧
      (reg.znodes.map NodeInfo.nodeid).Nodup :=
  ⟨_, _, rfl,
    (node_ids_distinct silent_manager
      [record_of NotificationType.Type_NodeAdded 100 5 value_A,
       record_of NotificationType.Type_ValueAdded 100 5 value_A,
       record_of NotificationType.Type_NodeAdded 100 6 value_A] [] _ _ rfl).1,
    (node_ids_distinct silent_manager
      [record_of NotificationType.Type_NodeAdded 100 5 value_A,
       record_of NotificationType.Type_ValueAdded 100 5 value_A,
       record_of NotificationType.Type_NodeAdded 100 6 value_A] [] _ _ rfl).2.mpr (by decide)⟩

/-- C8, as stated, fails: after driver-ready for home id 100 and then
driver-ready for home id 200 the home id is 200, not that of the first. -/
theorem homeid_set_once_counterexample :
    ¬ ∀ (m : Manager) (dr : NotifInfo) (post q : List NotifInfo) (reg : Registry) (out : Output),
        dr.type = NotificationType.Type_DriverReady →
        async_cb_while m (dr :: post) Globals.init.reg Output.nil = some (q, reg, out) →
        reg.homeid = dr.homeid := by
  intro h
  have h2 := h silent_manager (record_of NotificationType.Type_DriverReady 100 0 value_A)
    [record_of NotificationType.Type_DriverReady 200 0 value_A] _ _ _ rfl rfl
  simp [record_of] at h2

/-- C8, amended: once a driver-ready record has been processed, the home id is
the home id of that record and stays so while the records that follow are of other
types; so the home id is always that of the latest driver-ready record. -/
theorem homeid_latest_driver_ready (m : Manager) (reg0 : Registry) (pre : List NotifInfo)
    (dr : NotifInfo) (post q : List NotifInfo) (reg : Registry) (out : Output)
    (hdr : dr.type = NotificationType.Type_DriverReady)
    (hpost : ∀ r ∈ post, r.type ≠ NotificationType.Type_DriverReady)
    (hrun : async_cb_while m (pre ++ dr :: post) reg0 Output.nil = some (q, reg, out)) :
    reg.homeid = dr.homeid := by
  obtain ⟨_, _, _, hh⟩ := async_cb_while_reg m _ _ _ _ _ _ hrun
  rw [hh, List.foldl_append, List.foldl_cons]
  simp only [hdr, if_true]
  exact foldl_homeid_no_driver_ready post hpost _

/-- Witness of the amended C8: driver-ready 100, driver-ready 200, node-added. -/
theorem homeid_latest_driver_ready_witness :
    ∃ reg out,
      async_cb_while silent_manager
        ([record_of NotificationType.Type_DriverReady 100 0 value_A] ++
          record_of NotificationType.Type_DriverReady 200 0 value_A ::
            [record_of NotificationType.Type_NodeAdded 200 5 value_A])
        Globals.init.reg Output.nil = some ([], reg, out) ∧
      reg.homeid = 200 :=
  ⟨_, _, rfl,
    homeid_latest_driver_ready silent_manager Globals.init.reg
      [record_of NotificationType.Type_DriverReady 100 0 value_A]
      (record_of NotificationType.Type_DriverReady 200 0 value_A)
      [record_of NotificationType.Type_NodeAdded 200 5 value_A] [] _ _ rfl
      (by simp [record_of]) rfl⟩

/-- The hypothesis of C9 says something: a value-added record whose node id is
not the node id of the value it carries files the value under the node id of
the record.  After node-added for nodes 5 and 6 and value-added records for node
5 and for node 6 that both carry `value_A`, a value of node 5, both node records
hold `value_A`. -/
theorem foreign_record_files_value_twice :
    ¬ ∀ (m : Manager) (rs q : List NotifInfo) (reg : Registry) (out : Output),
        async_cb_while m rs Globals.init.reg Output.nil = some (q, reg, out) →
        reg.znodes.Pairwise (fun a b => ∀ v, v ∈ a.values → v ∉ b.values) := by
  intro h
  have h2 := h silent_manager
    [record_of NotificationType.Type_NodeAdded 100 5 value_A,
     record_of NotificationType.Type_NodeAdded 100 6 value_A,
     record_of NotificationType.Type_ValueAdded 100 5 value_A,
     record_of NotificationType.Type_ValueAdded 100 6 value_A] _ _ _ rfl
  simp [record_of, Globals.init, write_node_info, get_node_info] at h2

/-- A record `cb` builds from a notification whose node id is the node id of the
value it carries names the node of its value. -/
theorem cb_notif_names_node_of_value (n : Notification)
    (h : n.GetNodeId = n.GetValueID.GetNodeId) :
    ∀ v, (cb_notif n).values.head? = some v → v.GetNodeId = (cb_notif n).nodeid := by
  intro v hv
  rw [cb_notif_values] at hv
  simp only [List.head?, Option.some.injEq] at hv
  rw [cb_notif_nodeid, ← hv, h]

/-- C9: in every registry reached from the empty one by processing notification
records, no value is in the value lists of two different records of the node
table.  The records are those the controller can deliver: the node id of a
value-added record is the node id of the value it carries, as `cb` reads both
from one notification (`cb_notif_names_node_of_value`). -/
theorem value_in_one_node (m : Manager) (rs q : List NotifInfo) (reg : Registry) (out : Output)
    (hrs : ∀ r ∈ rs, r.type = NotificationType.Type_ValueAdded →
      ∀ v, r.values.head? = some v → v.GetNodeId = r.nodeid)
    (hrun : async_cb_while m rs Globals.init.reg Output.nil = some (q, reg, out)) :
    reg.znodes.Pairwise (fun a b => ∀ v, v ∈ a.values → v ∉ b.values) := by
  obtain ⟨_, _, hz, _⟩ := async_cb_while_reg m rs _ _ _ _ _ hrun
  have hinv : owns_values reg.znodes := by
    rw [hz]
    exact owns_values_foldl rs hrs _ ⟨by simp [Globals.init], by simp [Globals.init]⟩
  obtain ⟨hown, hpw⟩ := hinv
  refine hpw.imp_of_mem ?_
  intro a b ha hb hab v hva hvb
  have hn : a.nodeid = b.nodeid := by rw [← hown a ha v hva, ← hown b hb v hvb]
  rw [hab hn] at hvb
  simp at hvb

/-- Witness of C9: node-added for nodes 5 and 6, then two
value-added records for node 5 with `value_A`. -/
theorem value_in_one_node_witness :
    ∃ reg out,
      async_cb_while silent_manager
        [record_of NotificationType.Type_NodeAdded 100 5 value_A,
         record_of NotificationType.Type_NodeAdded 100 6 value_A,
         record_of NotificationType.Type_ValueAdded 100 5 value_A,
         record_of NotificationType.Type_ValueAdded 100 5 value_A]
        Globals.init.reg Output.nil = some ([], reg, out) ∧
      reg.znodes.Pairwise (fun a b => ∀ v, v ∈ a.values → v ∉ b.values) :=
  ⟨_, _, rfl,
    value_in_one_node silent_manager
      [record_of NotificationType.Type_NodeAdded 100 5 value_A,
       record_of NotificationType.Type_NodeAdded 100 6 value_A,
       record_of NotificationType.Type_ValueAdded 100 5 value_A,
       record_of NotificationType.Type_ValueAdded 100 5 value_A] [] _ _
      (by simp [record_of, value_A]) rfl⟩

/-- C10: with a controller whose scene id array has as many entries as its scene
count says, `getScenes` returns; it leaves the scene table as it is when the
count equals the table size, and otherwise replaces it by one record per entry
of the scene id list of the controller, in that order, with the label the
controller gives
and an empty value list.  In both cases it emits exactly one `scenes list` event
that lists scene id and label of the resulting table in table order (the scene
id as converted by `Integer::New`, which is the scene id itself below 2^31),
and it leaves the node table and the home id alone. -/
theorem get_scenes_cache (m : Manager) (reg : Registry)
    (hcons : m.GetAllScenes.length = m.GetNumScenes) :
    ∃ reg1 out, GetScenes m reg = some (reg1, out) ∧
      (m.GetNumScenes = reg.zscenes.length → reg1.zscenes = reg.zscenes) ∧
      (m.GetNumScenes ≠ reg.zscenes.length →
        reg1.zscenes = m.GetAllScenes.map
          (fun sceneid => { sceneid := sceneid, label := m.GetSceneLabel sceneid, values := [] })) ∧
      out.events =
        [{ name := "scenes list",
           args := [V8Value.objArray (reg1.zscenes.map (fun scene =>
             [("sceneid", V8Prim.int (Integer_New (Int.ofNat scene.sceneid))),
              ("label", V8Prim.str scene.label)]))] }] ∧
      ((∀ scene ∈ reg1.zscenes, scene.sceneid < 2147483648) →
        out.events =
          [{ name := "scenes list",
             args := [V8Value.objArray (reg1.zscenes.map (fun scene =>
               [("sceneid", V8Prim.int (Int.ofNat scene.sceneid)),
                ("label", V8Prim.str scene.label)]))] }]) ∧
      reg1.znodes = reg.znodes ∧ reg1.homeid = reg.homeid := by
  have hobj : scene_object = fun scene =>
      [("sceneid", V8Prim.int (Integer_New (Int.ofNat scene.sceneid))),
       ("label", V8Prim.str scene.label)] := by
    funext scene
    simp [scene_object, Object_Set]
  have hconv : ∀ zs : List SceneInfo, (∀ scene ∈ zs, scene.sceneid < 2147483648) →
      zs.map (fun scene => [("sceneid", V8Prim.int (Integer_New (Int.ofNat scene.sceneid))),
        ("label", V8Prim.str scene.label)]) =
      zs.map (fun scene => [("sceneid", V8Prim.int (Int.ofNat scene.sceneid)),
        ("label", V8Prim.str scene.label)]) := by
    intro zs hzs
    apply List.map_congr_left
    intro scene hscene
    rw [Integer_New_of_lt _ (hzs scene hscene)]
  by_cases hnum : m.GetNumScenes = reg.zscenes.length
  · simp only [GetScenes, hnum, ne_eq, not_true_eq_false, if_false, emit, hobj]
    refine ⟨_, _, rfl, ?_, ?_, rfl, ?_, rfl, rfl⟩
    · intro _; rfl
    · intro h; exact h.elim
    · intro hlt
      rw [hconv _ hlt]
  · have hloop := GetScenes_loop_eq m m.GetAllScenes m.GetNumScenes 0 [] (by omega)
    simp only [List.drop_zero, List.nil_append] at hloop
    simp only [GetScenes, ne_eq, hnum, not_false_eq_true, if_true, hloop, emit, hobj]
    refine ⟨_, _, rfl, ?_, ?_, rfl, ?_, rfl, rfl⟩
    · intro h; exact h.elim
    · intro _; rfl
    · intro hlt
      rw [hconv _ hlt]

/-- Witness of C10: a controller with the scenes 1 and 2 and an empty cached
table. -/
theorem get_scenes_cache_witness :
    ∃ reg1 out,
      GetScenes { silent_manager with GetNumScenes := 2, GetAllScenes := [1, 2] }
        Globals.init.reg = some (reg1, out) ∧
      reg1.zscenes =
        [{ sceneid := 1, label := "", values := [] }, { sceneid := 2, label := "", values := [] }] ∧
      out.events =
        [{ name := "scenes list",
           args := [V8Value.objArray
             [[("sceneid", V8Prim.int 1), ("label", V8Prim.str "")],
              [("sceneid", V8Prim.int 2), ("label", V8Prim.str "")]]] }] := by
  obtain ⟨reg1, out, h, _, hne, _, hev, _, _⟩ :=
    get_scenes_cache { silent_manager with GetNumScenes := 2, GetAllScenes := [1, 2] }
      Globals.init.reg rfl
  have hz := hne (by simp [Globals.init])
  refine ⟨reg1, out, h, ?_, ?_⟩
  · rw [hz]; rfl
  · rw [hev (by rw [hz]; simp), hz]
    rfl

/-- Reading a property after a write: the written value for the written name, the
old content for every other name. -/
theorem Object_Get_Set (o : V8Object) (k k2 : String) (v : V8Prim) :
    Object_Get (Object_Set o k v) k2 = if k = k2 then some v else Object_Get o k2 := by
  by_cases h : k = k2
  · subst h
    simp [Object_Get_Set_same]
  · simp [h, Object_Get_Set_other _ _ _ _ h]

/-- The properties of the object built before the type switch: the fourteen
structural ones, and neither `value` nor `values`. -/
theorem common_value_fields_get (m : Manager) (value : ValueID) :
    Object_Get (common_value_fields m value) "value_id" =
        some (V8Prim.str (value_id_string value)) ∧
    Object_Get (common_value_fields m value) "id" =
        some (V8Prim.int (Integer_New (Int.ofNat value.GetId))) ∧
    Object_Get (common_value_fields m value) "node_id" =
        some (V8Prim.int (Int.ofNat value.GetNodeId)) ∧
    Object_Get (common_value_fields m value) "class_id" =
        some (V8Prim.int (Int.ofNat value.GetCommandClassId)) ∧
    Object_Get (common_value_fields m value) "type" =
        some (V8Prim.str (m.GetTypeNameFromEnum value.GetType)) ∧
    Object_Get (common_value_fields m value) "genre" =
        some (V8Prim.str (m.GetGenreNameFromEnum value.GetGenre)) ∧
    Object_Get (common_value_fields m value) "instance" =
        some (V8Prim.int (Int.ofNat value.GetInstance)) ∧
    Object_Get (common_value_fields m value) "index" =
        some (V8Prim.int (Int.ofNat value.GetIndex)) ∧
    Object_Get (common_value_fields m value) "label" =
        some (V8Prim.str (m.GetValueLabel value)) ∧
    Object_Get (common_value_fields m value) "units" =
        some (V8Prim.str (m.GetValueUnits value)) ∧
    Object_Get (common_value_fields m value) "read_only" =
        some (V8Prim.bool (m.IsValueReadOnly value)) ∧
    Object_Get (common_value_fields m value) "write_only" =
        some (V8Prim.bool (m.IsValueWriteOnly value)) ∧
    Object_Get (common_value_fields m value) "min" = some (V8Prim.int (m.GetValueMin value)) ∧
    Object_Get (common_value_fields m value) "max" = some (V8Prim.int (m.GetValueMax value)) ∧
    Object_Get (common_value_fields m value) "value" = none ∧
    Object_Get (common_value_fields m value) "values" = none := by
  unfold common_value_fields
  simp only [Object_Get_Set, String.reduceEq, if_true, if_false, true_and]
  exact ⟨rfl, rfl⟩

/-- The type switch of `zwaveValue2v8Value` sets no property other than `value`
and `values`. -/
theorem zwaveValue2v8Value_get_other (m : Manager) (value : ValueID) (k : String)
    (h1 : k ≠ "value") (h2 : k ≠ "values") :
    Object_Get (zwaveValue2v8Value m value).1 k = Object_Get (common_value_fields m value) k := by
  unfold zwaveValue2v8Value
  cases value.GetType <;>
    simp only [Object_Get_Set_other _ _ _ _ (Ne.symm h1), Object_Get_Set_other _ _ _ _ (Ne.symm h2)]

/-- The object of `zwaveValue2v8Value` has all fourteen structural properties,
each with the value read from the value id or the controller; for a value of
type bool the `value` property is the boolean the controller reports and `type`
is the name of the bool type; for a value of type button there is no `value`
property.  The buffer is not part of `zwaveValue2v8Value`. -/
theorem zwaveValue2v8Value_fields (m : Manager) (value : ValueID) :
    Object_Get (zwaveValue2v8Value m value).1 "value_id" =
        some (V8Prim.str (value_id_string value)) ∧
    Object_Get (zwaveValue2v8Value m value).1 "id" =
        some (V8Prim.int (Integer_New (Int.ofNat value.GetId))) ∧
    Object_Get (zwaveValue2v8Value m value).1 "node_id" =
        some (V8Prim.int (Int.ofNat value.GetNodeId)) ∧
    Object_Get (zwaveValue2v8Value m value).1 "class_id" =
        some (V8Prim.int (Int.ofNat value.GetCommandClassId)) ∧
    Object_Get (zwaveValue2v8Value m value).1 "type" =
        some (V8Prim.str (m.GetTypeNameFromEnum value.GetType)) ∧
    Object_Get (zwaveValue2v8Value m value).1 "genre" =
        some (V8Prim.str (m.GetGenreNameFromEnum value.GetGenre)) ∧
    Object_Get (zwaveValue2v8Value m value).1 "instance" =
        some (V8Prim.int (Int.ofNat value.GetInstance)) ∧
    Object_Get (zwaveValue2v8Value m value).1 "index" =
        some (V8Prim.int (Int.ofNat value.GetIndex)) ∧
    Object_Get (zwaveValue2v8Value m value).1 "label" =
        some (V8Prim.str (m.GetValueLabel value)) ∧
    Object_Get (zwaveValue2v8Value m value).1 "units" =
        some (V8Prim.str (m.GetValueUnits value)) ∧
    Object_Get (zwaveValue2v8Value m value).1 "read_only" =
        some (V8Prim.bool (m.IsValueReadOnly value)) ∧
    Object_Get (zwaveValue2v8Value m value).1 "write_only" =
        some (V8Prim.bool (m.IsValueWriteOnly value)) ∧
    Object_Get (zwaveValue2v8Value m value).1 "min" = some (V8Prim.int (m.GetValueMin value)) ∧
    Object_Get (zwaveValue2v8Value m value).1 "max" = some (V8Prim.int (m.GetValueMax value)) ∧
    (value.GetType = ValueType.ValueType_Bool →
      Object_Get (zwaveValue2v8Value m value).1 "value" =
          some (V8Prim.bool (m.GetValueAsBool value)) ∧
      Object_Get (zwaveValue2v8Value m value).1 "type" =
          some (V8Prim.str (m.GetTypeNameFromEnum ValueType.ValueType_Bool))) ∧
    (value.GetType = ValueType.ValueType_Button →
      Object_Get (zwaveValue2v8Value m value).1 "value" = none) := by
  obtain ⟨c1, c2, c3, c4, c5, c6, c7, c8, c9, c10, c11, c12, c13, c14, c15, _⟩ :=
    common_value_fields_get m value
  refine ⟨?_, ?_, ?_, ?_, ?_, ?_, ?_, ?_, ?_, ?_, ?_, ?_, ?_, ?_, ?_, ?_⟩
  · rw [zwaveValue2v8Value_get_other m value _ (by decide) (by decide)]; exact c1
  · rw [zwaveValue2v8Value_get_other m value _ (by decide) (by decide)]; exact c2
  · rw [zwaveValue2v8Value_get_other m value _ (by decide) (by decide)]; exact c3
  · rw [zwaveValue2v8Value_get_other m value _ (by decide) (by decide)]; exact c4
  · rw [zwaveValue2v8Value_get_other m value _ (by decide) (by decide)]; exact c5
  · rw [zwaveValue2v8Value_get_other m value _ (by decide) (by decide)]; exact c6
  · rw [zwaveValue2v8Value_get_other m value _ (by decide) (by decide)]; exact c7
  · rw [zwaveValue2v8Value_get_other m value _ (by decide) (by decide)]; exact c8
  · rw [zwaveValue2v8Value_get_other m value _ (by decide) (by decide)]; exact c9
  · rw [zwaveValue2v8Value_get_other m value _ (by decide) (by decide)]; exact c10
  · rw [zwaveValue2v8Value_get_other m value _ (by decide) (by decide)]; exact c11
  · rw [zwaveValue2v8Value_get_other m value _ (by decide) (by decide)]; exact c12
  · rw [zwaveValue2v8Value_get_other m value _ (by decide) (by decide)]; exact c13
  · rw [zwaveValue2v8Value_get_other m value _ (by decide) (by decide)]; exact c14
  · intro hb
    refine ⟨?_, ?_⟩
    · simp only [zwaveValue2v8Value, hb]
      exact Object_Get_Set_same _ _ _
    · rw [zwaveValue2v8Value_get_other m value _ (by decide) (by decide), c5, hb]
  · intro hb
    simp only [zwaveValue2v8Value, hb]
    exact c15

/-- C11 at the failing input, and where the claim holds.  For the value of node
100, command class 112, instance 100 and index 101 the id text and its
terminator take 16 bytes: the write into `char buffer[15]` runs past the buffer,
and the source does not get to an object with a `value_id` it formatted.  For
every value whose id text has at most 14 characters the marshaller returns, and
the object has all fourteen structural properties, each with the value read
from the value id or the controller; for a value of type bool the `value`
property is the boolean the controller reports and `type` is the name of the
bool type; for a value of type button there is no `value` property. -/
theorem render_structural_fields :
    (value_id_string value_W).length = 15 ∧
    sprintf_buffer value_W = none ∧
    (∀ m : Manager, zwaveValue2v8Value_buffer m value_W = none) ∧
    (∀ (m : Manager) (value : ValueID), (value_id_string value).length ≤ 14 →
      ∃ valobj diags, zwaveValue2v8Value_buffer m value = some (valobj, diags) ∧
        Object_Get valobj "value_id" = some (V8Prim.str (value_id_string value)) ∧
        Object_Get valobj "id" = some (V8Prim.int (Integer_New (Int.ofNat value.GetId))) ∧
        Object_Get valobj "node_id" = some (V8Prim.int (Int.ofNat value.GetNodeId)) ∧
        Object_Get valobj "class_id" = some (V8Prim.int (Int.ofNat value.GetCommandClassId)) ∧
        Object_Get valobj "type" = some (V8Prim.str (m.GetTypeNameFromEnum value.GetType)) ∧
        Object_Get valobj "genre" = some (V8Prim.str (m.GetGenreNameFromEnum value.GetGenre)) ∧
        Object_Get valobj "instance" = some (V8Prim.int (Int.ofNat value.GetInstance)) ∧
        Object_Get valobj "index" = some (V8Prim.int (Int.ofNat value.GetIndex)) ∧
        Object_Get valobj "label" = some (V8Prim.str (m.GetValueLabel value)) ∧
        Object_Get valobj "units" = some (V8Prim.str (m.GetValueUnits value)) ∧
        Object_Get valobj "read_only" = some (V8Prim.bool (m.IsValueReadOnly value)) ∧
        Object_Get valobj "write_only" = some (V8Prim.bool (m.IsValueWriteOnly value)) ∧
        Object_Get valobj "min" = some (V8Prim.int (m.GetValueMin value)) ∧
        Object_Get valobj "max" = some (V8Prim.int (m.GetValueMax value)) ∧
        (value.GetType = ValueType.ValueType_Bool →
          Object_Get valobj "value" = some (V8Prim.bool (m.GetValueAsBool value)) ∧
          Object_Get valobj "type" =
            some (V8Prim.str (m.GetTypeNameFromEnum ValueType.ValueType_Bool))) ∧
        (value.GetType = ValueType.ValueType_Button → Object_Get valobj "value" = none)) := by
  have hW : sprintf_buffer value_W = none := by decide
  refine ⟨by decide, hW, ?_, ?_⟩
  · intro m
    simp only [zwaveValue2v8Value_buffer, hW]
  · intro m value hfit
    have hs : sprintf_buffer value = some (value_id_string value) := by
      unfold sprintf_buffer
      rw [if_pos (by omega)]
    refine ⟨(zwaveValue2v8Value m value).1, (zwaveValue2v8Value m value).2, ?_,
      zwaveValue2v8Value_fields m value⟩
    simp only [zwaveValue2v8Value_buffer, hs]

/-- C18, as stated, fails: for a button value the two objects agree, but
`zwaveSceneValue2v8Value` writes a diagnostic and `zwaveValue2v8Value` writes
none. -/
theorem scene_render_same_counterexample :
    ¬ ∀ (m : Manager) (sceneId : Nat) (value : ValueID),
        m.SceneGetValueAsBool sceneId value = m.GetValueAsBool value →
        m.SceneGetValueAsByte sceneId value = m.GetValueAsByte value →
        m.SceneGetValueAsFloat sceneId value = m.GetValueAsFloat value →
        m.SceneGetValueAsInt sceneId value = m.GetValueAsInt value →
        m.SceneGetValueAsShort sceneId value = m.GetValueAsShort value →
        m.SceneGetValueAsString sceneId value = m.GetValueAsString value →
        m.SceneGetValueListSelection sceneId value = m.GetValueListSelection value →
        zwaveSceneValue2v8Value m sceneId value = zwaveValue2v8Value m value := by
  intro h
  have h2 := h silent_manager 1 value_B rfl rfl rfl rfl rfl rfl rfl
  have h3 := congrArg Prod.snd h2
  simp [zwaveSceneValue2v8Value, zwaveValue2v8Value, value_B] at h3

/-- C18, amended: when the value recorded in the scene is the live value, the
two marshallers build the same object for a value of every type; for the types
bool, byte, decimal, int, list, short and string neither writes a diagnostic;
for every other type (button, schedule, raw, unknown) the object has no `value`
property and `zwaveSceneValue2v8Value` writes the diagnostic for an unsupported
scene value type, while `zwaveValue2v8Value` is silent for button, schedule and
raw and writes its own diagnostic for an unknown type. -/
theorem scene_render_same (m : Manager) (sceneId : Nat) (value : ValueID)
    (hbool : m.SceneGetValueAsBool sceneId value = m.GetValueAsBool value)
    (hbyte : m.SceneGetValueAsByte sceneId value = m.GetValueAsByte value)
    (hfloat : m.SceneGetValueAsFloat sceneId value = m.GetValueAsFloat value)
    (hint : m.SceneGetValueAsInt sceneId value = m.GetValueAsInt value)
    (hshort : m.SceneGetValueAsShort sceneId value = m.GetValueAsShort value)
    (hstring : m.SceneGetValueAsString sceneId value = m.GetValueAsString value)
    (hlist : m.SceneGetValueListSelection sceneId value = m.GetValueListSelection value) :
    (zwaveSceneValue2v8Value m sceneId value).1 = (zwaveValue2v8Value m value).1 ∧
    ((value.GetType = ValueType.ValueType_Bool ∨ value.GetType = ValueType.ValueType_Byte ∨
      value.GetType = ValueType.ValueType_Decimal ∨ value.GetType = ValueType.ValueType_Int ∨
      value.GetType = ValueType.ValueType_List ∨ value.GetType = ValueType.ValueType_Short ∨
      value.GetType = ValueType.ValueType_String) →
      (zwaveSceneValue2v8Value m sceneId value).2 = [] ∧ (zwaveValue2v8Value m value).2 = []) ∧
    ((value.GetType = ValueType.ValueType_Button ∨ value.GetType = ValueType.ValueType_Schedule ∨
      value.GetType = ValueType.ValueType_Raw) →
      (zwaveSceneValue2v8Value m sceneId value).2 =
          [Diag.unsupported_scene_value_type value.GetType] ∧
      (zwaveValue2v8Value m value).2 = [] ∧
      Object_Get (zwaveValue2v8Value m value).1 "value" = none) ∧
    (∀ code, value.GetType = ValueType.ValueType_Other code →
      (zwaveSceneValue2v8Value m sceneId value).2 =
          [Diag.unsupported_scene_value_type value.GetType] ∧
      (zwaveValue2v8Value m value).2 = [Diag.unsupported_value_type value.GetType] ∧
      Object_Get (zwaveValue2v8Value m value).1 "value" = none) := by
  have hnone := (common_value_fields_get m value).2.2.2.2.2.2.2.2.2.2.2.2.2.2.1
  unfold zwaveSceneValue2v8Value zwaveValue2v8Value
  cases ht : value.GetType <;>
    simp [hbool, hbyte, hfloat, hint, hshort, hstring, hlist, hnone]

/-- Witness of the amended C18: the button value `value_B` in scene 1. -/
theorem scene_render_same_witness :
    (zwaveSceneValue2v8Value silent_manager 1 value_B).1 =
        (zwaveValue2v8Value silent_manager value_B).1 ∧
    (zwaveSceneValue2v8Value silent_manager 1 value_B).2 =
        [Diag.unsupported_scene_value_type ValueType.ValueType_Button] ∧
    (zwaveValue2v8Value silent_manager value_B).2 = [] :=
  have h := scene_render_same silent_manager 1 value_B rfl rfl rfl rfl rfl rfl rfl
  ⟨h.1, (h.2.2.1 (Or.inl rfl)).1, (h.2.2.1 (Or.inl rfl)).2.1⟩

/-- What `get_node_info` finds is the first record of the table with the node
id, and a write through it replaces just that record. -/
theorem get_node_info_split (znodes : List NodeInfo) (nodeid : Nat) (node : NodeInfo)
    (h : get_node_info znodes nodeid = some node) :
    ∃ l1 l2, znodes = l1 ++ node :: l2 ∧ (∀ x ∈ l1, x.nodeid ≠ nodeid) ∧
      node.nodeid = nodeid ∧
      ∀ f : NodeInfo → NodeInfo, write_node_info znodes nodeid f = l1 ++ f node :: l2 := by
  induction znodes with
  | nil => simp [get_node_info] at h
  | cons x rest ih =>
    by_cases h1 : x.nodeid = nodeid
    · simp only [get_node_info, h1, if_true, Option.some.injEq] at h
      subst h
      exact ⟨[], rest, rfl, by simp, h1, fun f => by simp [write_node_info, h1]⟩
    · simp only [get_node_info, h1, if_false] at h
      obtain ⟨l1, l2, hl, hpre, hid, hw⟩ := ih h
      refine ⟨x :: l1, l2, by rw [hl]; rfl, ?_, hid, ?_⟩
      · intro y hy
        rcases List.mem_cons.mp hy with hy | hy
        · rw [hy]; exact h1
        · exact hpre y hy
      · intro f
        simp only [write_node_info, h1, if_false, hw f, List.cons_append]

/-- The erase loop on a list that holds the value: the part before the first
occurrence and the part after it remain, in order. -/
theorem values_erase_split (values : List ValueID) (value : ValueID) (h : value ∈ values) :
    ∃ pre post, values = pre ++ value :: post ∧ value ∉ pre ∧
      values_erase values value = pre ++ post := by
  induction values with
  | nil => simp at h
  | cons v rest ih =>
    by_cases h1 : v = value
    · subst h1
      exact ⟨[], rest, rfl, by simp, by simp [values_erase]⟩
    · have hr : value ∈ rest := by
        rcases List.mem_cons.mp h with h2 | h2
        · exact absurd h2.symm h1
        · exact h2
      obtain ⟨pre, post, hl, hpre, he⟩ := ih hr
      refine ⟨v :: pre, post, by rw [hl]; rfl, ?_, ?_⟩
      · intro hm
        rcases List.mem_cons.mp hm with h2 | h2
        · exact h1 h2.symm
        · exact hpre h2
      · simp only [values_erase, h1, if_false, he, List.cons_append]

theorem values_erase_of_not_mem (values : List ValueID) (value : ValueID) (h : value ∉ values) :
    values_erase values value = values := by
  rw [values_erase_eq_erase]
  exact List.erase_of_not_mem h

/-- C19: a value-removed record for node `n` with value `v` leaves the scene
table and the home id alone and emits exactly one `value removed` event with
`n` and the class id, instance and index of `v`.  When the first table record
for `n` holds `v`, that record loses the first occurrence of `v` and keeps the
other values in order, and every other record stays as it is; when there is no
record for `n`, or the first one does not hold `v`, the node table stays as it
is. -/
theorem value_removed_effect (m : Manager) (reg : Registry) (notif : NotifInfo) (v : ValueID)
    (ht : notif.type = NotificationType.Type_ValueRemoved)
    (hv : notif.values.head? = some v) :
    ∃ reg1 out, async_cb_switch m notif reg = some (reg1, out) ∧
      reg1.zscenes = reg.zscenes ∧ reg1.homeid = reg.homeid ∧
      out.events =
        [{ name := "value removed",
           args := [V8Value.int (Int.ofNat notif.nodeid),
                    V8Value.int (Int.ofNat v.GetCommandClassId),
                    V8Value.int (Int.ofNat v.GetInstance),
                    V8Value.int (Int.ofNat v.GetIndex)] }] ∧
      (∀ node, get_node_info reg.znodes notif.nodeid = some node → v ∈ node.values →
        ∃ l1 l2 pre post,
          reg.znodes = l1 ++ node :: l2 ∧ (∀ x ∈ l1, x.nodeid ≠ notif.nodeid) ∧
          node.values = pre ++ v :: post ∧ v ∉ pre ∧
          reg1.znodes = l1 ++ { node with values := pre ++ post } :: l2) ∧
      ((∀ node, get_node_info reg.znodes notif.nodeid = some node → v ∉ node.values) →
        reg1.znodes = reg.znodes) := by
  obtain ⟨type, homeid, nodeid, groupidx, event, buttonid, sceneid, notification, values⟩ := notif
  obtain ⟨znodes, zscenes, hid⟩ := reg
  simp only at ht hv
  subst ht
  simp only [async_cb_switch, hv, emit]
  refine ⟨_, _, rfl, rfl, rfl, rfl, ?_, ?_⟩
  · intro node hnode hmem
    obtain ⟨l1, l2, hl, hpre, _, hw⟩ := get_node_info_split znodes nodeid node hnode
    obtain ⟨pre, post, hvals, hnot, he⟩ := values_erase_split node.values v hmem
    refine ⟨l1, l2, pre, post, hl, hpre, hvals, hnot, ?_⟩
    simp only [hnode, hw, he]
  · intro hno
    cases hg : get_node_info znodes nodeid with
    | none => rfl
    | some node =>
      obtain ⟨l1, l2, hl, _, _, hw⟩ := get_node_info_split znodes nodeid node hg
      simp only [hw, values_erase_of_not_mem _ _ (hno node hg)]
      exact hl.symm

/-- Witness of C19: node 5 holds `value_B`, `value_A`, `value_B`; removing
`value_A` leaves `value_B`, `value_B`. -/
theorem value_removed_effect_witness :
    ∃ reg1 out,
      async_cb_switch silent_manager (record_of NotificationType.Type_ValueRemoved 100 5 value_A)
        { znodes := [{ homeid := 100, nodeid := 5, polled := false,
                       values := [value_B, value_A, value_B] }],
          zscenes := [], homeid := 100 } = some (reg1, out) ∧
      reg1.znodes =
        [{ homeid := 100, nodeid := 5, polled := false, values := [value_B, value_B] }] ∧
      out.events.map Event.name = ["value removed"] := by
  obtain ⟨reg1, out, h, _, _, hev, _, _⟩ :=
    value_removed_effect silent_manager
      { znodes := [{ homeid := 100, nodeid := 5, polled := false,
                     values := [value_B, value_A, value_B] }],
        zscenes := [], homeid := 100 }
      (record_of NotificationType.Type_ValueRemoved 100 5 value_A) value_A rfl rfl
  refine ⟨reg1, out, h, ?_, by rw [hev]; rfl⟩
  simp only [record_of, async_cb_switch, List.head?, get_node_info, write_node_info,
    if_true, Option.some.injEq, Prod.mk.injEq] at h
  rw [← h.1]
  simp [values_erase, value_A, value_B]

/-- C20 at the failing input: a decimal value that the controller reports as
21.5 (live and in scene 1) is rendered with the `value` property 21 by both
marshallers. -/
theorem decimal_render_truncates :
    decimal_manager.GetValueAsFloat value_D = 43 / 2 ∧
    decimal_manager.SceneGetValueAsFloat 1 value_D = 43 / 2 ∧
    Object_Get (zwaveValue2v8Value decimal_manager value_D).1 "value" =
        some (V8Prim.int 21) ∧
    Object_Get (zwaveSceneValue2v8Value decimal_manager 1 value_D).1 "value" =
        some (V8Prim.int 21) := by
  have h : float_to_int32 (43 / 2) = 21 := by
    unfold float_to_int32
    norm_num
    rfl
  refine ⟨rfl, rfl, ?_, ?_⟩
  · simp only [zwaveValue2v8Value, value_D, decimal_manager, Object_Get_Set_same, h]
  · simp only [zwaveSceneValue2v8Value, value_D, decimal_manager, Object_Get_Set_same, h]

/-- C12, as stated, fails: after `disconnect` a registry that knew node 5 still
knows it. -/
theorem disconnect_clears_counterexample :
    ¬ ∀ (path : String) (reg : Registry),
        (Disconnect path reg).reg.znodes = [] ∧ (Disconnect path reg).reg.zscenes = [] := by
  intro h
  have h2 := (h "/dev/ttyUSB0" registry_node5).1
  simp [Disconnect, registry_node5] at h2

/-- C12, amended: `disconnect` leaves the node table, the scene table and the
home id as they are and emits nothing; it forwards the removal of the driver
and of the watcher and the destruction of the manager and of the options to the
controller, so a lookup of a node id or scene id hits after it exactly when it
hit before. -/
theorem disconnect_keeps_registry (path : String) (reg : Registry) :
    (Disconnect path reg).reg = reg ∧
    (Disconnect path reg).out.events = [] ∧
    (Disconnect path reg).calls =
      [ControllerCall.RemoveDriver path, ControllerCall.RemoveWatcher,
       ControllerCall.Manager_Destroy, ControllerCall.Options_Destroy] ∧
    (∀ nodeid, get_node_info (Disconnect path reg).reg.znodes nodeid =
      get_node_info reg.znodes nodeid) ∧
    (∀ sceneid, get_scene_info (Disconnect path reg).reg.zscenes sceneid =
      get_scene_info reg.zscenes sceneid) :=
  ⟨rfl, rfl, rfl, fun _ => rfl, fun _ => rfl⟩

theorem SetValue_loop_no_match (comclass instance_ index : Nat) (arg : JsValue)
    (values : List ValueID)
    (h : ∀ v ∈ values,
      ¬ (v.GetCommandClassId = comclass ∧ v.GetInstance = instance_ ∧ v.GetIndex = index)) :
    SetValue_loop comclass instance_ index arg values = [] := by
  induction values with
  | nil => rfl
  | cons v rest ih =>
    simp only [SetValue_loop, h v (List.mem_cons_self _ _), if_false, List.nil_append]
    exact ih (fun x hx => h x (List.mem_cons_of_mem _ hx))

theorem AddSceneValue_loop_no_match (sceneid comclass instance_ index : Nat) (arg : JsValue)
    (values : List ValueID)
    (h : ∀ v ∈ values,
      ¬ (v.GetCommandClassId = comclass ∧ v.GetInstance = instance_ ∧ v.GetIndex = index)) :
    AddSceneValue_loop sceneid comclass instance_ index arg values = [] := by
  induction values with
  | nil => rfl
  | cons v rest ih =>
    simp only [AddSceneValue_loop, h v (List.mem_cons_self _ _), if_false, List.nil_append]
    exact ih (fun x hx => h x (List.mem_cons_of_mem _ hx))

theorem EnablePoll_loop_no_match (comclass : Nat) (values : List ValueID)
    (h : ∀ v ∈ values, v.GetCommandClassId ≠ comclass) :
    EnablePoll_loop comclass values = [] := by
  induction values with
  | nil => rfl
  | cons v rest ih =>
    simp only [EnablePoll_loop, h v (List.mem_cons_self _ _), if_false]
    exact ih (fun x hx => h x (List.mem_cons_of_mem _ hx))

/-- C13: a lookup miss is a silent no-op.  When the node id has no record, or no
value of the node matches class, instance and index, `setValue` and
`addSceneValue` forward nothing, emit nothing and leave the registry as it is;
the same holds for `enablePoll` when the node id has no record or no value of
the node has the command class, and for `removeScene`, `removeSceneValue` and
`activateScene` when the scene id has no record. -/
theorem lookup_miss_is_silent (reg : Registry)
    (sceneid nodeid comclass instance_ index : Nat) (arg : JsValue) :
    ((∀ node, get_node_info reg.znodes nodeid = some node → ∀ v ∈ node.values,
        ¬ (v.GetCommandClassId = comclass ∧ v.GetInstance = instance_ ∧ v.GetIndex = index)) →
      SetValue reg nodeid comclass instance_ index arg =
          { reg := reg, out := { events := [], stderr := [], handled := [] }, calls := [] } ∧
      AddSceneValue reg sceneid nodeid comclass instance_ index arg =
          { reg := reg, out := { events := [], stderr := [], handled := [] }, calls := [] }) ∧
    ((∀ node, get_node_info reg.znodes nodeid = some node → ∀ v ∈ node.values,
        v.GetCommandClassId ≠ comclass) →
      EnablePoll reg nodeid comclass =
          { reg := reg, out := { events := [], stderr := [], handled := [] }, calls := [] }) ∧
    (get_scene_info reg.zscenes sceneid = none →
      RemoveScene reg sceneid =
          { reg := reg, out := { events := [], stderr := [], handled := [] }, calls := [] } ∧
      RemoveSceneValue reg sceneid nodeid comclass instance_ index =
          { reg := reg, out := { events := [], stderr := [], handled := [] }, calls := [] } ∧
      ActivateScene reg sceneid =
          { reg := reg, out := { events := [], stderr := [], handled := [] }, calls := [] }) := by
  refine ⟨?_, ?_, ?_⟩
  · intro h
    cases hg : get_node_info reg.znodes nodeid with
    | none => simp [SetValue, AddSceneValue, hg, CommandResult.nothing, Output.nil]
    | some node =>
      simp [SetValue, AddSceneValue, hg, Output.nil,
        SetValue_loop_no_match _ _ _ _ _ (h node hg),
        AddSceneValue_loop_no_match _ _ _ _ _ _ (h node hg)]
  · intro h
    cases hg : get_node_info reg.znodes nodeid with
    | none => simp [EnablePoll, hg, CommandResult.nothing, Output.nil]
    | some node =>
      simp [EnablePoll, hg, Output.nil, EnablePoll_loop_no_match _ _ (h node hg)]
  · intro h
    simp [RemoveScene, RemoveSceneValue, ActivateScene, h, CommandResult.nothing, Output.nil]

/-- Witness of C13: with `registry_node5`, node 6 is unknown, node 5 has no value
of class 99, and scene 1 is unknown. -/
theorem lookup_miss_is_silent_witness :
    SetValue registry_node5 6 38 1 0 js_one =
        { reg := registry_node5, out := { events := [], stderr := [], handled := [] },
          calls := [] } ∧
    EnablePoll registry_node5 5 99 =
        { reg := registry_node5, out := { events := [], stderr := [], handled := [] },
          calls := [] } ∧
    ActivateScene registry_node5 1 =
        { reg := registry_node5, out := { events := [], stderr := [], handled := [] },
          calls := [] } :=
  ⟨((lookup_miss_is_silent registry_node5 1 6 38 1 0 js_one).1
      (by simp [registry_node5, get_node_info])).1,
    (lookup_miss_is_silent registry_node5 1 5 99 1 0 js_one).2.1
      (by simp [registry_node5, get_node_info, value_A]),
    ((lookup_miss_is_silent registry_node5 1 5 99 1 0 js_one).2.2 rfl).2.2⟩

/-- C14, as stated, fails: with an empty node table `getNeighbors` for node 5
emits a `neighbors` event. -/
theorem neighbors_lookup_miss_counterexample :
    ¬ ∀ (m : Manager) (reg : Registry) (nodeid : Nat),
        (∀ node ∈ reg.znodes, node.nodeid ≠ nodeid) →
        (GetNodeNeighbors m reg nodeid).out.events = [] := by
  intro h
  have h2 := h silent_manager Globals.init.reg 5 (by simp [Globals.init])
  simp [GetNodeNeighbors, emit] at h2

/-- C14, amended: `getNeighbors` does not look at the node table.  For every node
id it emits exactly one `neighbors` event with the node id and the neighbours
the controller reports for that node in the current home network, and it leaves
the registry as it is. -/
theorem neighbors_always_emitted (m : Manager) (reg : Registry) (nodeid : Nat) :
    (GetNodeNeighbors m reg nodeid).out.events =
      [{ name := "neighbors",
         args := [V8Value.int (Int.ofNat nodeid),
                  V8Value.intArray ((m.GetNodeNeighbors reg.homeid nodeid).map Int.ofNat)] }] ∧
    (GetNodeNeighbors m reg nodeid).reg = reg ∧
    (GetNodeNeighbors m reg nodeid).calls = [] :=
  ⟨rfl, rfl, rfl⟩

/-- The loop of `OZW::SetValue` forwards one call for every matching value whose
type has a conversion, in list order. -/
theorem SetValue_loop_eq (comclass instance_ index : Nat) (arg : JsValue)
    (values : List ValueID) :
    SetValue_loop comclass instance_ index arg values =
      (values.filter (fun v => decide
        (v.GetCommandClassId = comclass ∧ v.GetInstance = instance_ ∧ v.GetIndex = index))).filterMap
        (fun v => (switch_scalar v.GetType arg).map (ControllerCall.SetValue v)) := by
  induction values with
  | nil => rfl
  | cons v rest ih =>
    by_cases h : v.GetCommandClassId = comclass ∧ v.GetInstance = instance_ ∧ v.GetIndex = index
    · cases hs : switch_scalar v.GetType arg with
      | none => simp [SetValue_loop, h, hs, List.filter_cons, List.filterMap_cons, ih]
      | some val => simp [SetValue_loop, h, hs, List.filter_cons, List.filterMap_cons, ih]
    · simp [SetValue_loop, h, List.filter_cons, ih]

/-- C15, as stated, fails: when node 5 holds `value_A` twice, `setValue` for its
class, instance and index forwards two set calls, not one. -/
theorem set_value_first_match_counterexample :
    ¬ ∀ (reg : Registry) (nodeid comclass instance_ index : Nat) (arg : JsValue)
        (node : NodeInfo),
        get_node_info reg.znodes nodeid = some node →
        (∃ v ∈ node.values,
          v.GetCommandClassId = comclass ∧ v.GetInstance = instance_ ∧ v.GetIndex = index) →
        (SetValue reg nodeid comclass instance_ index arg).calls.length = 1 := by
  intro h
  have h2 := h registry_node5_twice 5 38 1 0 js_one _ rfl
    ⟨value_A, by simp, by simp [value_A]⟩
  simp [SetValue, registry_node5_twice, get_node_info, SetValue_loop, value_A,
    switch_scalar] at h2

/-- C15, amended: `setValue` on a known node forwards one set call for every
value of the node that matches class, instance and index and has the type bool,
byte, decimal, int, list, short or string, in list order, and nothing for a
matching value of another type; the registry stays as it is and nothing is
emitted.  So when exactly one value matches and its type has a conversion,
exactly one call is forwarded and it targets that value. -/
theorem set_value_every_match (reg : Registry) (nodeid comclass instance_ index : Nat)
    (arg : JsValue) (node : NodeInfo)
    (hnode : get_node_info reg.znodes nodeid = some node) :
    (SetValue reg nodeid comclass instance_ index arg).reg = reg ∧
    (SetValue reg nodeid comclass instance_ index arg).out.events = [] ∧
    (SetValue reg nodeid comclass instance_ index arg).calls =
      (node.values.filter (fun v => decide
        (v.GetCommandClassId = comclass ∧ v.GetInstance = instance_ ∧ v.GetIndex = index))).filterMap
        (fun v => (switch_scalar v.GetType arg).map (ControllerCall.SetValue v)) ∧
    (∀ pre v post val, node.values = pre ++ v :: post →
      (∀ x ∈ pre ++ post,
        ¬ (x.GetCommandClassId = comclass ∧ x.GetInstance = instance_ ∧ x.GetIndex = index)) →
      (v.GetCommandClassId = comclass ∧ v.GetInstance = instance_ ∧ v.GetIndex = index) →
      switch_scalar v.GetType arg = some val →
      (SetValue reg nodeid comclass instance_ index arg).calls = [ControllerCall.SetValue v val]) := by
  have hcalls : (SetValue reg nodeid comclass instance_ index arg).calls =
      SetValue_loop comclass instance_ index arg node.values := by
    simp only [SetValue, hnode]
  refine ⟨by simp only [SetValue, hnode], by simp only [SetValue, hnode, Output.nil],
    by rw [hcalls, SetValue_loop_eq], ?_⟩
  intro pre v post val hvals hothers hv hs
  rw [hcalls, SetValue_loop_eq, hvals]
  have hpre : pre.filter (fun v => decide
      (v.GetCommandClassId = comclass ∧ v.GetInstance = instance_ ∧ v.GetIndex = index)) = [] := by
    rw [List.filter_eq_nil_iff]
    intro x hx
    simpa using hothers x (List.mem_append_left _ hx)
  have hpost : post.filter (fun v => decide
      (v.GetCommandClassId = comclass ∧ v.GetInstance = instance_ ∧ v.GetIndex = index)) = [] := by
    rw [List.filter_eq_nil_iff]
    intro x hx
    simpa using hothers x (List.mem_append_right _ hx)
  rw [List.filter_append, List.filter_cons, hpre, hpost]
  simp [hv, hs]

/-- Witness of the amended C15: node 5 holds the byte value `value_A` once. -/
theorem set_value_every_match_witness :
    (SetValue registry_node5 5 38 1 0 js_one).calls =
      [ControllerCall.SetValue value_A (Scalar.byte 1)] :=
  (set_value_every_match registry_node5 5 38 1 0 js_one
    { homeid := 100, nodeid := 5, polled := false, values := [value_A] } rfl).2.2.2
    [] value_A [] (Scalar.byte 1) rfl (by simp) (by simp [value_A]) rfl

/-- C16 at the failing input: `init` binds the host method `disablePoll` to
`OZW::EnablePoll`, so `disablePoll` for node 5 and class 38 forwards an
enable-poll call for `value_A`; the function `OZW::DisablePoll`, which forwards
the disable-poll call, is bound to no host method. -/
theorem disable_poll_enables :
    prototype_method "disablePoll" = some OZW_Function.EnablePoll ∧
    host_poll_call "disablePoll" registry_node5 5 38 =
      some { reg := registry_node5, out := { events := [], stderr := [], handled := [] },
             calls := [ControllerCall.EnablePoll value_A 1] } ∧
    (DisablePoll registry_node5 5 38).calls = [ControllerCall.DisablePoll value_A] ∧
    (∀ name, prototype_method name ≠ some OZW_Function.DisablePoll) := by
  refine ⟨by decide, by decide, by decide, ?_⟩
  intro name h
  unfold prototype_method at h
  cases hf : init.find? (fun entry => decide (entry.1 = name)) with
  | none => simp [hf] at h
  | some entry =>
    simp only [hf, Option.some.injEq] at h
    have hmem := List.mem_of_find?_eq_some hf
    simp only [init, List.mem_cons, List.mem_singleton, List.not_mem_nil, or_false] at hmem
    rcases hmem with h1 | h1 | h1 | h1 | h1 | h1 | h1 | h1 | h1 | h1 | h1 | h1 | h1 | h1 | h1 |
      h1 | h1 | h1 | h1 | h1 | h1 | h1 <;> (rw [h1] at h; cases h)

theorem held_after_append (a b : List Action) :
    ∀ held : List Mutex, held_after held (a ++ b) = held_after (held_after held a) b := by
  induction a with
  | nil => intro held; rfl
  | cons x rest ih =>
    intro held
    cases x <;> simp only [List.cons_append, held_after] <;> exact ih _

theorem held_at_calls_append (a b : List Action) :
    ∀ held : List Mutex,
      held_at_calls held (a ++ b) =
        held_at_calls held a ++ held_at_calls (held_after held a) b := by
  induction a with
  | nil => intro held; rfl
  | cons x rest ih =>
    intro held
    cases x <;> simp only [List.cons_append, held_at_calls, held_after] <;>
      first
        | exact ih _
        | exact congrArg (List.cons held) (ih _)

theorem runs_at_nil (held : List Mutex) : runs_at held [] :=
  ⟨rfl, by simp [held_at_calls]⟩

theorem runs_at_append (held : List Mutex) (a b : List Action)
    (ha : runs_at held a) (hb : runs_at held b) : runs_at held (a ++ b) := by
  constructor
  · rw [held_after_append, ha.1, hb.1]
  · intro x hx
    rw [held_at_calls_append, ha.1] at hx
    rcases List.mem_append.mp hx with h | h
    · exact ha.2 x h
    · exact hb.2 x h

theorem runs_at_controller (held : List Mutex) (call : String) (t : List Action)
    (ht : runs_at held t) : runs_at held (Action.controller call :: t) := by
  constructor
  · simp only [held_after]; exact ht.1
  · intro x hx
    simp only [held_at_calls, List.mem_cons] at hx
    rcases hx with h | h
    · exact h
    · exact ht.2 x h

theorem runs_at_emit (held : List Mutex) (name : String) (t : List Action)
    (ht : runs_at held t) : runs_at held (Action.emit name :: t) := by
  constructor
  · simp only [held_after]; exact ht.1
  · intro x hx
    simp only [held_at_calls, List.mem_cons] at hx
    rcases hx with h | h
    · exact h
    · exact ht.2 x h

/-- A mutex taken and given back at once, with no call in between. -/
theorem runs_at_lock_unlock (held : List Mutex) (mu : Mutex) (t : List Action)
    (ht : runs_at held t) : runs_at held (Action.lock mu :: Action.unlock mu :: t) := by
  have he : (mu :: held).erase mu = held := by simp
  constructor
  · simp only [held_after, he]; exact ht.1
  · intro x hx
    simp only [held_at_calls, he] at hx
    exact ht.2 x hx

theorem runs_at_flatten (held : List Mutex) (ts : List (List Action))
    (h : ∀ t ∈ ts, runs_at held t) : runs_at held ts.flatten := by
  induction ts with
  | nil => exact runs_at_nil held
  | cons t rest ih =>
    rw [List.flatten_cons]
    exact runs_at_append held t _ (h t (List.mem_cons_self _ _))
      (ih (fun x hx => h x (List.mem_cons_of_mem _ hx)))

theorem runs_at_map_controller (held : List Mutex) (call : String) (calls : List ControllerCall) :
    runs_at held (calls.map (fun _ => Action.controller call)) := by
  induction calls with
  | nil => exact runs_at_nil held
  | cons c rest ih => exact runs_at_controller held call _ ih

theorem runs_at_zwaveValue2v8Value_trace (held : List Mutex) (value : ValueID) :
    runs_at held (zwaveValue2v8Value_trace value) := by
  unfold zwaveValue2v8Value_trace
  cases value.GetType <;>
    simp only [List.cons_append, List.nil_append] <;>
    repeat (first
      | exact runs_at_nil held
      | apply runs_at_controller)

theorem runs_at_zwaveSceneValue2v8Value_trace (held : List Mutex) (value : ValueID) :
    runs_at held (zwaveSceneValue2v8Value_trace value) := by
  unfold zwaveSceneValue2v8Value_trace
  cases value.GetType <;>
    simp only [List.cons_append, List.nil_append] <;>
    repeat (first
      | exact runs_at_nil held
      | apply runs_at_controller)

theorem runs_at_node_info_trace (held : List Mutex) : runs_at held node_info_trace := by
  unfold node_info_trace
  repeat (first
    | exact runs_at_nil held
    | apply runs_at_controller)

/-- One round of the switch runs at the mutexes held when it starts: the node
table mutex it may take is given back before the next call or emission. -/
theorem runs_at_async_cb_switch_trace (held : List Mutex) (notif : NotifInfo) (reg : Registry)
    (t : List Action) (h : async_cb_switch_trace notif reg = some t) : runs_at held t := by
  obtain ⟨type, homeid, nodeid, groupidx, event, buttonid, sceneid, notification, values⟩ := notif
  have hone : ∀ name : String, runs_at held [Action.emit name] :=
    fun name => runs_at_emit held name [] (runs_at_nil held)
  cases values with
  | nil =>
    cases type <;> simp only [async_cb_switch_trace, List.head?, Option.some.injEq] at h <;>
      first
        | (subst h; exact runs_at_nil held)
        | (subst h; exact hone _)
        | (subst h; exact runs_at_lock_unlock held _ _ (hone _))
        | (subst h; exact runs_at_append held _ _ (runs_at_node_info_trace held) (hone _))
        | exact absurd h (by simp)
  | cons v vs =>
    cases type <;> simp only [async_cb_switch_trace, List.head?, Option.some.injEq] at h <;>
      subst h <;>
      first
        | exact runs_at_nil held
        | exact hone _
        | exact runs_at_lock_unlock held _ _ (hone _)
        | exact runs_at_append held _ _ (runs_at_node_info_trace held) (hone _)
        | exact runs_at_append held _ _ (runs_at_zwaveValue2v8Value_trace held v) (hone _)
        | (refine runs_at_append held _ _
            (runs_at_append held _ _ (runs_at_zwaveValue2v8Value_trace held v) ?_) (hone _)
           cases get_node_info reg.znodes nodeid with
           | none => exact runs_at_nil held
           | some node => exact runs_at_lock_unlock held _ _ (runs_at_nil held))

theorem runs_at_async_cb_while_trace (m : Manager) (held : List Mutex) :
    ∀ (q : List NotifInfo) (reg : Registry) (ts : List Action),
      async_cb_while_trace m q reg = some ts → runs_at held ts := by
  intro q
  induction q with
  | nil =>
    intro reg ts h
    simp only [async_cb_while_trace, Option.some.injEq] at h
    subst h
    exact runs_at_nil held
  | cons notif rest ih =>
    intro reg ts h
    simp only [async_cb_while_trace] at h
    cases ht : async_cb_switch_trace notif reg with
    | none => simp [ht] at h
    | some t =>
      cases hs : async_cb_switch m notif reg with
      | none => simp [ht, hs] at h
      | some p =>
        obtain ⟨reg1, o⟩ := p
        simp only [ht, hs] at h
        cases hw : async_cb_while_trace m rest reg1 with
        | none => simp [hw] at h
        | some ts1 =>
          simp only [hw, Option.some.injEq] at h
          subst h
          exact runs_at_append held _ _ (runs_at_async_cb_switch_trace held notif reg t ht)
            (ih reg1 ts1 hw)

theorem async_cb_while_trace_total (m : Manager) :
    ∀ (q : List NotifInfo) (reg : Registry), (∀ r ∈ q, r.values ≠ []) →
      ∃ ts, async_cb_while_trace m q reg = some ts := by
  intro q
  induction q with
  | nil => intro reg _; exact ⟨[], rfl⟩
  | cons notif rest ih =>
    intro reg hq
    have hv := hq notif (List.mem_cons_self _ _)
    obtain ⟨reg1, o, hs, _⟩ := async_cb_switch_total m notif reg hv
    have ht : ∃ t, async_cb_switch_trace notif reg = some t := by
      obtain ⟨type, homeid, nodeid, groupidx, event, buttonid, sceneid, notification, values⟩ :=
        notif
      cases values with
      | nil => exact absurd rfl hv
      | cons v vs => cases type <;> exact ⟨_, rfl⟩
    obtain ⟨t, ht⟩ := ht
    obtain ⟨ts, hw⟩ := ih reg1 (fun r hr => hq r (List.mem_cons_of_mem _ hr))
    exact ⟨t ++ ts, by simp only [async_cb_while_trace, ht, hs, hw]⟩

/-- In `OZW::SceneGetValues` the scene table mutex is held while a value is
rendered: with scene 1 known and one value in it, the six common controller
queries and the byte query run under `zscenes_mutex`. -/
theorem scene_get_values_calls_under_lock :
    held_at_calls []
      (Command.trace { silent_manager with SceneGetValues := fun _ => [value_A] }
        { znodes := [], zscenes := [{ sceneid := 1, label := "", values := [] }], homeid := 100 }
        (Command.SceneGetValues 1)) =
      [[], [Mutex.zscenes_mutex], [Mutex.zscenes_mutex], [Mutex.zscenes_mutex],
       [Mutex.zscenes_mutex], [Mutex.zscenes_mutex], [Mutex.zscenes_mutex],
       [Mutex.zscenes_mutex], []] := by
  decide

/-- Every command other than `OZW::SceneGetValues` runs at the mutexes held when
it starts. -/
theorem runs_at_command_trace (m : Manager) (reg : Registry) (held : List Mutex) (c : Command)
    (hc : ∀ sceneid, c ≠ Command.SceneGetValues sceneid) : runs_at held (c.trace m reg) := by
  cases c with
  | SceneGetValues sceneid => exact absurd rfl (hc sceneid)
  | SetValue nodeid comclass instance_ index arg => exact runs_at_map_controller held _ _
  | EnablePoll nodeid comclass => exact runs_at_map_controller held _ _
  | DisablePoll nodeid comclass => exact runs_at_map_controller held _ _
  | AddSceneValue sceneid nodeid comclass instance_ index arg =>
    exact runs_at_map_controller held _ _
  | RemoveSceneValue sceneid nodeid comclass instance_ index =>
    exact runs_at_map_controller held _ _
  | ActivateScene sceneid => exact runs_at_map_controller held _ _
  | CreateScene label =>
    simp only [Command.trace]
    refine runs_at_append held _ _ (runs_at_controller held _ _ (runs_at_nil held)) ?_
    by_cases h : m.CreateScene > 0
    · simp only [h, if_true]
      exact runs_at_controller held _ _ (runs_at_lock_unlock held _ _ (runs_at_nil held))
    · simp only [h, if_false]
      exact runs_at_nil held
  | RemoveScene sceneid =>
    simp only [Command.trace]
    cases get_scene_info reg.zscenes sceneid with
    | none => exact runs_at_nil held
    | some scene =>
      exact runs_at_controller held _ _ (runs_at_lock_unlock held _ _ (runs_at_nil held))
  | GetScenes =>
    simp only [Command.trace]
    refine runs_at_append held _ _
      (runs_at_append held _ _ (runs_at_controller held _ _ (runs_at_nil held)) ?_)
      (runs_at_emit held _ _ (runs_at_nil held))
    by_cases h : m.GetNumScenes = reg.zscenes.length
    · simp only [h, ne_eq, not_true_eq_false, if_false]
      exact runs_at_nil held
    · simp only [h, ne_eq, not_false_eq_true, if_true]
      refine runs_at_append held _ _
        (runs_at_lock_unlock held _ _ (runs_at_controller held _ _ (runs_at_nil held))) ?_
      apply runs_at_flatten
      intro t ht
      obtain ⟨_, _, rfl⟩ := List.mem_map.mp ht
      exact runs_at_controller held _ _ (runs_at_lock_unlock held _ _ (runs_at_nil held))
  | Connect path =>
    exact runs_at_controller held _ _ (runs_at_controller held _ _
      (runs_at_controller held _ _ (runs_at_emit held _ _ (runs_at_nil held))))
  | Disconnect path =>
    exact runs_at_controller held _ _ (runs_at_controller held _ _
      (runs_at_controller held _ _ (runs_at_controller held _ _ (runs_at_nil held))))
  | GetNodeNeighbors nodeid =>
    exact runs_at_controller held _ _ (runs_at_emit held _ _ (runs_at_nil held))
  | SetLocation nodeid location => exact runs_at_controller held _ _ (runs_at_nil held)
  | SetName nodeid name => exact runs_at_controller held _ _ (runs_at_nil held)
  | HardReset => exact runs_at_controller held _ _ (runs_at_nil held)
  | SoftReset => exact runs_at_controller held _ _ (runs_at_nil held)
  | SwitchAllOn => exact runs_at_controller held _ _ (runs_at_nil held)
  | SwitchAllOff => exact runs_at_controller held _ _ (runs_at_nil held)
  | HealNetworkNode nodeid doRR => exact runs_at_controller held _ _ (runs_at_nil held)
  | HealNetwork => exact runs_at_controller held _ _ (runs_at_nil held)
  | SetConfigParam homeid nodeid param value size =>
    exact runs_at_controller held _ _ (runs_at_nil held)

/-- C17, as stated, fails: the drain of a queue that holds one driver-ready
record emits `driver ready` while `zqueue_mutex` is held. -/
theorem no_lock_at_calls_counterexample :
    ¬ ∀ (m : Manager) (g : Globals) (t : List Action),
        async_cb_handler_trace m g = some t → ∀ x ∈ held_at_calls [] t, x = [] := by
  intro h
  have h2 := h silent_manager
    { zqueue := [record_of NotificationType.Type_DriverReady 100 0 value_A],
      reg := Globals.init.reg } _ rfl [Mutex.zqueue_mutex] (by decide)
  exact absurd h2 (by decide)

/-- C17, amended: with the three mutexes as held or free flags, a drain of a
queue whose records each carry a value runs to its end; at every controller call
and every emission of a drain exactly `zqueue_mutex` is held (the drain takes it
on entry and gives it back at the end; the node table mutex is taken and given
back around a push, before the next call), and no mutex is held after the
drain.  Every command other than `sceneGetValues` holds at each of its
controller calls and emissions exactly the mutexes that were held when it was
entered, and gives back every mutex it takes: none is held in a command called
from the host loop, and `zqueue_mutex` is held in a command that a listener
calls from inside an emission of the drain. -/
theorem lock_discipline (m : Manager) :
    (∀ g : Globals, (∀ r ∈ g.zqueue, r.values ≠ []) →
      ∃ t, async_cb_handler_trace m g = some t) ∧
    (∀ (g : Globals) (t : List Action), async_cb_handler_trace m g = some t →
      (∀ x ∈ held_at_calls [] t, x = [Mutex.zqueue_mutex]) ∧ held_after [] t = []) ∧
    (∀ (held : List Mutex) (reg : Registry) (c : Command),
      (∀ sceneid, c ≠ Command.SceneGetValues sceneid) →
      (∀ x ∈ held_at_calls held (c.trace m reg), x = held) ∧
      held_after held (c.trace m reg) = held) := by
  refine ⟨?_, ?_, ?_⟩
  · intro g hg
    obtain ⟨ts, hts⟩ := async_cb_while_trace_total m g.zqueue g.reg hg
    refine ⟨[Action.lock Mutex.zqueue_mutex] ++ ts ++ [Action.unlock Mutex.zqueue_mutex], ?_⟩
    simp only [async_cb_handler_trace, hts]
  · intro g t h
    simp only [async_cb_handler_trace] at h
    cases hw : async_cb_while_trace m g.zqueue g.reg with
    | none => simp [hw] at h
    | some ts =>
      simp only [hw, Option.some.injEq] at h
      subst h
      have hr := runs_at_async_cb_while_trace m [Mutex.zqueue_mutex] g.zqueue g.reg ts hw
      have e : [Action.lock Mutex.zqueue_mutex] ++ ts ++ [Action.unlock Mutex.zqueue_mutex] =
          Action.lock Mutex.zqueue_mutex :: (ts ++ [Action.unlock Mutex.zqueue_mutex]) := by
        simp
      rw [e]
      constructor
      · intro x hx
        have hx2 : x ∈ held_at_calls [Mutex.zqueue_mutex]
            (ts ++ [Action.unlock Mutex.zqueue_mutex]) := hx
        rw [held_at_calls_append, hr.1] at hx2
        rcases List.mem_append.mp hx2 with h1 | h1
        · exact hr.2 x h1
        · simp [held_at_calls] at h1
      · have h2 : held_after [] (Action.lock Mutex.zqueue_mutex ::
            (ts ++ [Action.unlock Mutex.zqueue_mutex])) =
            held_after [Mutex.zqueue_mutex] (ts ++ [Action.unlock Mutex.zqueue_mutex]) := rfl
        rw [h2, held_after_append, hr.1]
        simp [held_after]
  · intro held reg c hc
    have hr := runs_at_command_trace m reg held c hc
    exact ⟨hr.2, hr.1⟩

/-- Witness of the amended C17: the drain of a queue with a node-added and a
value-added record for node 5; the command `getScenes` called from the host
loop, and called from a listener during a drain. -/
theorem lock_discipline_witness :
    (∃ t, async_cb_handler_trace silent_manager
        { zqueue := [record_of NotificationType.Type_NodeAdded 100 5 value_A,
                     record_of NotificationType.Type_ValueAdded 100 5 value_A],
          reg := Globals.init.reg } = some t ∧
      (∀ x ∈ held_at_calls [] t, x = [Mutex.zqueue_mutex]) ∧ held_after [] t = []) ∧
    (∀ x ∈ held_at_calls [] (Command.trace silent_manager registry_node5 Command.GetScenes),
      x = []) ∧
    (∀ x ∈ held_at_calls [Mutex.zqueue_mutex]
        (Command.trace silent_manager registry_node5 Command.GetScenes),
      x = [Mutex.zqueue_mutex]) := by
  obtain ⟨t, ht⟩ := (lock_discipline silent_manager).1
    { zqueue := [record_of NotificationType.Type_NodeAdded 100 5 value_A,
                 record_of NotificationType.Type_ValueAdded 100 5 value_A],
      reg := Globals.init.reg } (by simp [record_of])
  exact ⟨⟨t, ht, (lock_discipline silent_manager).2.1 _ t ht⟩,
    ((lock_discipline silent_manager).2.2 [] registry_node5 Command.GetScenes
      (fun _ h => by cases h)).1,
    ((lock_discipline silent_manager).2.2 [Mutex.zqueue_mutex] registry_node5 Command.GetScenes
      (fun _ h => by cases h)).1⟩

/-- The command `OZW::AddSceneValue` never changes the registry. -/
theorem AddSceneValue_reg (reg : Registry) (sceneid nodeid comclass instance_ index : Nat)
    (arg : JsValue) :
    (AddSceneValue reg sceneid nodeid comclass instance_ index arg).reg = reg := by
  unfold AddSceneValue
  cases get_node_info reg.znodes nodeid <;> rfl

/-- C21 at the failing input: with node 5 holding the byte value `value_A` and
scene 1 known with an empty value list, `addSceneValue` for scene 1 and the
class, instance and index of `value_A` forwards the addition to the controller
and leaves the registry, and so the value list of scene 1, as it was; the
`removeSceneValue` that follows finds nothing in that list, forwards nothing
and changes nothing.  Had the list held `value_A`, the same `removeSceneValue`
would have forwarded the removal and erased it.  No run of `OZW::AddSceneValue`
changes the registry. -/
theorem add_scene_value_keeps_list :
    (AddSceneValue registry_scene1 1 5 38 1 0 js_one).calls =
      [ControllerCall.AddSceneValue 1 value_A (Scalar.byte 1)] ∧
    (AddSceneValue registry_scene1 1 5 38 1 0 js_one).reg = registry_scene1 ∧
    get_scene_info (AddSceneValue registry_scene1 1 5 38 1 0 js_one).reg.zscenes 1 =
      some { sceneid := 1, label := "", values := [] } ∧
    RemoveSceneValue (AddSceneValue registry_scene1 1 5 38 1 0 js_one).reg 1 5 38 1 0 =
      { reg := registry_scene1, out := { events := [], stderr := [], handled := [] },
        calls := [] } ∧
    RemoveSceneValue registry_scene1_filled 1 5 38 1 0 =
      { reg := registry_scene1, out := { events := [], stderr := [], handled := [] },
        calls := [ControllerCall.RemoveSceneValue 1 value_A] } ∧
    (∀ (reg : Registry) (sceneid nodeid comclass instance_ index : Nat) (arg : JsValue),
      (AddSceneValue reg sceneid nodeid comclass instance_ index arg).reg = reg) := by
  refine ⟨by decide, by decide, by decide, by decide, by decide, ?_⟩
  intro reg sceneid nodeid comclass instance_ index arg
  exact AddSceneValue_reg reg sceneid nodeid comclass instance_ index arg

set_option maxRecDepth 1000000 in
/-- The decimal text of a byte has at most three characters, and three exactly
from 100 on. -/
theorem toString_length_byte :
    ∀ n, n < 256 → ((toString n).length ≤ 3 ∧ ((toString n).length = 3 ↔ 100 ≤ n)) := by
  decide

/-- The length of the text formatted into `buffer`, for a value whose node id,
class id, instance and index are bytes: at most 15 characters, and at most 14
exactly when one of the four numbers is below 100. -/
theorem value_id_string_length (value : ValueID)
    (h1 : value.GetNodeId < 256) (h2 : value.GetCommandClassId < 256)
    (h3 : value.GetInstance < 256) (h4 : value.GetIndex < 256) :
    (value_id_string value).length ≤ 15 ∧
    ((value_id_string value).length ≤ 14 ↔
      (value.GetNodeId < 100 ∨ value.GetCommandClassId < 100 ∨ value.GetInstance < 100 ∨
        value.GetIndex < 100)) := by
  have hd : ("-" : String).length = 1 := by decide
  obtain ⟨a1, b1⟩ := toString_length_byte value.GetNodeId h1
  obtain ⟨a2, b2⟩ := toString_length_byte value.GetCommandClassId h2
  obtain ⟨a3, b3⟩ := toString_length_byte value.GetInstance h3
  obtain ⟨a4, b4⟩ := toString_length_byte value.GetIndex h4
  unfold value_id_string
  simp only [String.length_append, hd]
  constructor
  · omega
  · constructor
    · intro h
      by_contra hc
      have c1 : 100 ≤ value.GetNodeId := by omega
      have c2 : 100 ≤ value.GetCommandClassId := by omega
      have c3 : 100 ≤ value.GetInstance := by omega
      have c4 : 100 ≤ value.GetIndex := by omega
      have e1 := b1.mpr c1
      have e2 := b2.mpr c2
      have e3 := b3.mpr c3
      have e4 := b4.mpr c4
      omega
    · intro h
      rcases h with h | h | h | h
      · have : (toString value.GetNodeId).length ≠ 3 := fun e => by have := b1.mp e; omega
        omega
      · have : (toString value.GetCommandClassId).length ≠ 3 := fun e => by
          have := b2.mp e; omega
        omega
      · have : (toString value.GetInstance).length ≠ 3 := fun e => by have := b3.mp e; omega
        omega
      · have : (toString value.GetIndex).length ≠ 3 := fun e => by have := b4.mp e; omega
        omega

/-- C22 at the failing input: for the value of node 100, command class 112,
instance 100 and index 101, all of them bytes, both marshallers format the text
`100-112-100-101` of 15 characters, which with its terminator takes 16 bytes,
one more than `buffer` has.  For byte values the text never has more than 15
characters, and it has at most 14, and fits, exactly when one of the four
numbers is below 100. -/
theorem value_id_overflows_buffer :
    (value_W.GetNodeId < 256 ∧ value_W.GetCommandClassId < 256 ∧ value_W.GetInstance < 256 ∧
      value_W.GetIndex < 256) ∧
    value_id_string value_W = "100-112-100-101" ∧
    (value_id_string value_W).length = 15 ∧
    Object_Get (zwaveValue2v8Value silent_manager value_W).1 "value_id" =
      some (V8Prim.str "100-112-100-101") ∧
    Object_Get (zwaveSceneValue2v8Value silent_manager 1 value_W).1 "value_id" =
      some (V8Prim.str "100-112-100-101") ∧
    (∀ value : ValueID, value.GetNodeId < 256 → value.GetCommandClassId < 256 →
      value.GetInstance < 256 → value.GetIndex < 256 →
      (value_id_string value).length ≤ 15 ∧
      ((value_id_string value).length ≤ 14 ↔
        (value.GetNodeId < 100 ∨ value.GetCommandClassId < 100 ∨ value.GetInstance < 100 ∨
          value.GetIndex < 100))) := by
  have hs : value_id_string value_W = "100-112-100-101" := by decide
  refine ⟨by decide, hs, by decide, ?_, ?_, ?_⟩
  · rw [zwaveValue2v8Value_get_other silent_manager value_W _ (by decide) (by decide),
      (common_value_fields_get silent_manager value_W).1, hs]
  · have h : (zwaveSceneValue2v8Value silent_manager 1 value_W).1 =
        Object_Set (common_value_fields silent_manager value_W) "value"
          (V8Prim.int (Int.ofNat (silent_manager.SceneGetValueAsByte 1 value_W))) := rfl
    rw [h, Object_Get_Set_other _ _ _ _ (by decide),
      (common_value_fields_get silent_manager value_W).1, hs]
  · intro value h1 h2 h3 h4
    exact value_id_string_length value h1 h2 h3 h4

end Ozw
